import Mathlib

/-! kbmod: the layered-image data model and the image stack

A shallow embedding of `src/search/src/LayeredImage.{h,cpp}` and
`src/search/src/ImageStack.cpp`.

Modelling conventions

* A finite `float` or `double` value (a pixel, a time) is the rational `ℚ` it denotes.
  Every arithmetic operation and every narrowing conversion of the source rounds its exact
  result to the nearest value of its type, ties to even: `toFloat` for `float` (IEEE 754
  binary32) and `toDouble` for `double` (binary64).  An operation on two `float`s is
  evaluated in `float`, as on x86-64.  A widening conversion is exact and is not written.
  Infinities and NaN are not modelled: a result beyond the largest finite `float`,
  `maxFloat`, is outside the model, and the theorems about computed values assume that it
  does not occur.
* A pixel buffer (`float*` into a `std::vector<float>`) is a `List ℚ`.  A read `buf[i]` is
  `buf.getD i 0` and a write `buf[i] = v` is `buf.set i v`; out-of-range accesses, which are
  undefined behaviour in the source, read `0` and write nothing.
* A counting loop `for (i = 0; i < n; ++i) body` is `forLoop n body`; a range-for loop over a
  vector is a left fold over the list.  Loop counters are assumed not to wrap.
* A member function that mutates `*this` is a function from the old object to the new one.
  A function that can `throw` returns an `Outcome`: the object state when it returned or
  threw, and the message of the exception, if any.  A function guarded by `assert`
  returns `none` when the assertion fails.
* File names, FITS input/output and console output are left out.
* `RawImage`, `PointSpreadFunc`, `ImageStack.h` and `common.h` are not among the sources.
  What the embedded functions need of them is either a parameter (`NO_DATA`, the PSF
  supplier, `addPixelInterp`, `maskPixelInterp`) or a definition whose comment starts with
  "Modelled from the spec".  The convolution modelled from the spec is in exact arithmetic:
  the spec does not fix the order of its operations.
-/

namespace kbmod

/-! ## Floating point -/

/-- The number of halvings that take `n` below 2, counted for at most `fuel` rounds. -/
def log2Fuel : Nat → Nat → Nat
  | 0, _ => 0
  | fuel + 1, n => if n < 2 then 0 else log2Fuel fuel (n / 2) + 1

/-- The exponent of the largest power of two that is at most `n`, for `n ≥ 1`. -/
def natLog2 (n : Nat) : Nat := log2Fuel n n

/-- The integer nearest to `x`; of the two nearest integers when `x` is half-way, the even
one. -/
def roundHalfEven (x : ℚ) : Int :=
  if x - ⌊x⌋ < 1 / 2 then ⌊x⌋
  else if 1 / 2 < x - ⌊x⌋ then ⌊x⌋ + 1
  else if ⌊x⌋ % 2 = 0 then ⌊x⌋ else ⌊x⌋ + 1

/-- The exponent of the largest power of two that is at most `x`, for `x > 0`. -/
def floorLog2 (x : ℚ) : Int :=
  if (2 : ℚ) ^ ((natLog2 x.num.natAbs : Int) - (natLog2 x.den : Int)) ≤ x then
    (natLog2 x.num.natAbs : Int) - (natLog2 x.den : Int)
  else (natLog2 x.num.natAbs : Int) - (natLog2 x.den : Int) - 1

/-- The exponent of the spacing of the values around `x > 0` in a binary format with `prec`
significant bits whose smallest spacing is `2^emin`. -/
def ulpExponent (prec : Nat) (emin : Int) (x : ℚ) : Int :=
  max (floorLog2 x - ((prec : Int) - 1)) emin

/-- The value of the format nearest to `x ≥ 0`, ties to even. -/
def roundMagnitude (prec : Nat) (emin : Int) (x : ℚ) : ℚ :=
  (roundHalfEven (x / (2 : ℚ) ^ ulpExponent prec emin x) : ℚ) *
    (2 : ℚ) ^ ulpExponent prec emin x

/-- The value of the format nearest to `x`, ties to even; the format is symmetric about
zero. -/
def roundBinary (prec : Nat) (emin : Int) (x : ℚ) : ℚ :=
  if x < 0 then -roundMagnitude prec emin (-x) else roundMagnitude prec emin x

/-- The `float` nearest to `x`: IEEE 754 binary32 has 24 significant bits and its smallest
subnormal is `2^-149`.  The result is the one of the machine as long as it is at most
`maxFloat` in absolute value. -/
def toFloat (x : ℚ) : ℚ := roundBinary 24 (-149) x

/-- The `double` nearest to `x`: IEEE 754 binary64 has 53 significant bits and its smallest
subnormal is `2^-1074`. -/
def toDouble (x : ℚ) : ℚ := roundBinary 53 (-1074) x

/-- The largest finite `float`, `FLT_MAX`. -/
def maxFloat : ℚ := (2 ^ 24 - 1) * 2 ^ 104

/-! ## Control flow -/

/-- The loop `for (i = 0; i < n; ++i) s = body i s`, started in `init`. -/
def forLoop {σ : Type} (n : Nat) (body : Nat → σ → σ) (init : σ) : σ :=
  match n with
  | 0 => init
  | k + 1 => body k (forLoop k body init)

/-- Result of a call that may throw: the object afterwards and the exception message. -/
structure Outcome (σ : Type) where
  state : σ
  thrown : Option String
deriving DecidableEq

/-- The conversion `static_cast<int>(x)` of a float: truncation toward zero when the result
fits a 32-bit `int`.  Outside that range C++ leaves the conversion undefined; the x86-64
conversion instruction then yields `INT_MIN`, and so does this definition. -/
def toInt (x : ℚ) : Int :=
  if -(2 ^ 31) ≤ Int.tdiv x.num x.den ∧ Int.tdiv x.num x.den < 2 ^ 31 then
    Int.tdiv x.num x.den
  else -(2 ^ 31)

/-- The value returned by a function whose return type is `unsigned`. -/
def toUnsigned (n : Nat) : Nat := n % 2 ^ 32

/-! ## RawImage -/

/-- Modelled from the spec: RawImage.h and RawImage.cpp are not in src.  A PixelGrid has a
width `w`, a height `h` and a buffer of `w*h` floats. -/
structure RawImage where
  width : Nat
  height : Nat
  pixels : List ℚ
deriving DecidableEq

namespace RawImage

/-- Modelled from the spec: the constructor `RawImage(w, h)`, which is not in src; the
buffer of `w*h` floats starts as zeros. -/
def zeros (w h : Nat) : RawImage :=
  { width := w, height := h, pixels := List.replicate (w * h) 0 }

/-- The data-model invariant of a grid: the buffer length is `w*h`. -/
def WellFormed (r : RawImage) : Prop := r.pixels.length = r.width * r.height

instance (r : RawImage) : Decidable r.WellFormed := by
  unfold WellFormed; infer_instance

/-- Modelled from the spec: `RawImage::applyMask`, which is not in src.  For every cell
where `maskSource` has any bit in `flagBits` set and no bit in `exceptionBits`, the cell of
this grid is set to `NO_DATA`. -/
def applyMask (NO_DATA : ℚ) (self : RawImage) (flags : Int) (exceptions : List Int)
    (maskSource : RawImage) : RawImage :=
  { self with
    pixels := forLoop (self.width * self.height) (fun p pixels =>
      let pixFlags := toInt (maskSource.pixels.getD p 0)
      if Int.land flags pixFlags ≠ 0 ∧ ∀ e ∈ exceptions, Int.land e pixFlags = 0 then
        pixels.set p NO_DATA
      else pixels) self.pixels }

end RawImage

/-! ## LayeredImage -/

/-- The data members of `LayeredImage` (LayeredImage.h), without the file names. -/
structure LayeredImage where
  width : Nat
  height : Nat
  pixelsPerImage : Nat
  captureTime : ℚ
  science : RawImage
  mask : RawImage
  variance : RawImage
deriving DecidableEq

namespace LayeredImage

/-- The data-model invariant of an exposure: the three layers have the declared shape and
`pixelsPerImage` is the number of pixels. -/
def WellFormed (im : LayeredImage) : Prop :=
  im.pixelsPerImage = im.width * im.height ∧
  (im.science.WellFormed ∧ im.science.width = im.width ∧ im.science.height = im.height) ∧
  (im.mask.WellFormed ∧ im.mask.width = im.width ∧ im.mask.height = im.height) ∧
  (im.variance.WellFormed ∧ im.variance.width = im.width ∧ im.variance.height = im.height)

instance (im : LayeredImage) : Decidable im.WellFormed := by
  unfold WellFormed; infer_instance

/-- Accessor `LayeredImage::getTime`. -/
def getTime (self : LayeredImage) : ℚ := self.captureTime

/-- Accessor `LayeredImage::getPPI`. -/
def getPPI (self : LayeredImage) : Nat := self.pixelsPerImage

/-- The check `LayeredImage::checkDims`: the message of the exception it throws, if any. -/
def checkDims (self : LayeredImage) (im : RawImage) : Option String :=
  if im.width ≠ self.width then some "Image width does not match"
  else if im.height ≠ self.height then some "Image height does not match"
  else none

/-- The setter `LayeredImage::setScience`. -/
def setScience (self : LayeredImage) (im : RawImage) : Outcome LayeredImage :=
  match checkDims self im with
  | some e => { state := self, thrown := some e }
  | none => { state := { self with science := im }, thrown := none }

/-- The setter `LayeredImage::setMask`. -/
def setMask (self : LayeredImage) (im : RawImage) : Outcome LayeredImage :=
  match checkDims self im with
  | some e => { state := self, thrown := some e }
  | none => { state := { self with mask := im }, thrown := none }

/-- The setter `LayeredImage::setVariance`. -/
def setVariance (self : LayeredImage) (im : RawImage) : Outcome LayeredImage :=
  match checkDims self im with
  | some e => { state := self, thrown := some e }
  | none => { state := { self with variance := im }, thrown := none }

/-- The method `LayeredImage::applyMasterMask`: mask all pixels that are not 0 in the
master mask. -/
def applyMasterMask (NO_DATA : ℚ) (self : LayeredImage) (masterM : RawImage) : LayeredImage :=
  { self with
    science := self.science.applyMask NO_DATA 0xFFFFFF [] masterM
    variance := self.variance.applyMask NO_DATA 0xFFFFFF [] masterM }

/-- The method `LayeredImage::applyMaskThreshold`; the loop state is the pair of the science
and variance buffers. -/
def applyMaskThreshold (NO_DATA : ℚ) (self : LayeredImage) (thresh : ℚ) : LayeredImage :=
  let pix := forLoop self.pixelsPerImage (fun i (pix : List ℚ × List ℚ) =>
    if pix.1.getD i 0 > thresh then (pix.1.set i NO_DATA, pix.2.set i NO_DATA) else pix)
    (self.science.pixels, self.variance.pixels)
  { self with
    science := { self.science with pixels := pix.1 }
    variance := { self.variance with pixels := pix.2 } }

/-- The method `LayeredImage::subtractTemplate`; `none` when the assertion on the shapes
fails. -/
def subtractTemplate (self : LayeredImage) (subTemplate : RawImage) : Option LayeredImage :=
  if self.height = subTemplate.height ∧ self.width = subTemplate.width then
    let sciPix := forLoop self.getPPI (fun i sciPix =>
      sciPix.set i (toFloat (sciPix.getD i 0 - subTemplate.pixels.getD i 0)))
      self.science.pixels
    some { self with science := { self.science with pixels := sciPix } }
  else none

end LayeredImage

/-! ## ImageStack -/

/-- The data members of `ImageStack`, without the file names and the verbosity flag. -/
structure ImageStack where
  images : List LayeredImage
  imageTimes : List ℚ
  masterMask : RawImage
  avgTemplate : RawImage
deriving DecidableEq

namespace ImageStack

/-- Modelled from the spec: ImageStack.h is not in src; the stack has the shape of its
exposures, read off the first one. -/
def getWidth (s : ImageStack) : Nat :=
  match s.images with
  | [] => 0
  | im :: _ => im.width

/-- Modelled from the spec: ImageStack.h is not in src; the stack has the shape of its
exposures, read off the first one. -/
def getHeight (s : ImageStack) : Nat :=
  match s.images with
  | [] => 0
  | im :: _ => im.height

/-- Modelled from the spec: ImageStack.h is not in src; the stack has the shape of its
exposures, read off the first one. -/
def getPPI (s : ImageStack) : Nat :=
  match s.images with
  | [] => 0
  | im :: _ => im.getPPI

/-- The accessor `ImageStack::imgCount`, of return type `unsigned`. -/
def imgCount (s : ImageStack) : Nat := toUnsigned s.images.length

/-- The method `ImageStack::extractImageTimes`: each capture time, a `double`, is narrowed
to `float`. -/
def extractImageTimes (s : ImageStack) : ImageStack :=
  { s with imageTimes := s.images.foldl (fun times i => times ++ [toFloat i.getTime]) [] }

/-- The method `ImageStack::setTimeOrigin`: the first time is read once, before the loop,
into a `double`; each difference is computed in `double` and stored as `float`. -/
def setTimeOrigin (s : ImageStack) : ImageStack :=
  let initialTime := s.imageTimes.getD 0 0
  { s with imageTimes := s.imageTimes.map (fun t => toFloat (toDouble (t - initialTime))) }

/-- The constructor `ImageStack::ImageStack(std::vector<LayeredImage>)`. -/
def new (imgs : List LayeredImage) : ImageStack :=
  let s : ImageStack :=
    { images := imgs, imageTimes := [], masterMask := RawImage.zeros 0 0,
      avgTemplate := RawImage.zeros 0 0 }
  let s := extractImageTimes s
  let s := setTimeOrigin s
  let s := { s with masterMask := RawImage.zeros (getWidth s) (getHeight s) }
  { s with avgTemplate := RawImage.zeros (getWidth s) (getHeight s) }

/-- The method `ImageStack::setTimes`. -/
def setTimes (s : ImageStack) (times : List ℚ) : Outcome ImageStack :=
  if times.length ≠ imgCount s then
    { state := s,
      thrown := some "List of times provided does not match the number of images!" }
  else
    { state := setTimeOrigin { s with imageTimes := times }, thrown := none }

/-- The method `ImageStack::createMasterMask`; the counters are the `float` cells of the
master mask. -/
def createMasterMask (s : ImageStack) (flags threshold : Int) : ImageStack :=
  let masterM := s.images.foldl (fun masterM img =>
    let imgMask := img.mask.pixels
    forLoop (getPPI s) (fun pixel masterM =>
      if Int.land flags (toInt (imgMask.getD pixel 0)) ≠ 0 then
        masterM.set pixel (toFloat (masterM.getD pixel 0 + 1))
      else masterM) masterM) s.masterMask.pixels
  let fThreshold : ℚ := toFloat (threshold : ℚ)
  let masterM := forLoop (getPPI s) (fun p masterM =>
    masterM.set p (if masterM.getD p 0 < fThreshold then 0 else 1)) masterM
  { s with masterMask := { s.masterMask with pixels := masterM } }

/-- The method `ImageStack::applyMasterMask`. -/
def applyMasterMask (NO_DATA : ℚ) (s : ImageStack) (flags threshold : Int) : ImageStack :=
  let s := createMasterMask s flags threshold
  { s with images := s.images.map (fun i => i.applyMasterMask NO_DATA s.masterMask) }

/-- The method `ImageStack::createTemplate`; `none` when the assertion on the shapes
fails. -/
def createTemplate (s : ImageStack) : Option ImageStack :=
  if s.avgTemplate.width = getWidth s ∧ s.avgTemplate.height = getHeight s then
    let templatePix := s.images.foldl (fun templatePix i =>
      let imgPix := i.science.pixels
      forLoop (getPPI s) (fun p templatePix =>
        templatePix.set p (toFloat (templatePix.getD p 0 + imgPix.getD p 0))) templatePix)
      s.avgTemplate.pixels
    let templatePix := forLoop (getPPI s) (fun p templatePix =>
      templatePix.set p (toFloat (templatePix.getD p 0 / toFloat (imgCount s : ℚ))))
      templatePix
    some { s with avgTemplate := { s.avgTemplate with pixels := templatePix } }
  else none

end ImageStack

/-! ## PointSpreadFunc and the grid operations behind convolve and growMask -/

/-- Modelled from the spec: PointSpreadFunc.h is not in src.  A PSF has a stdev, a derived
kernel (square, of odd dimension `dim = 2*radius+1`, stored as `dim*dim` floats) and a
radius. -/
structure PointSpreadFunc where
  stdev : ℚ
  kernel : List ℚ
  radius : Nat
  dim : Nat
deriving DecidableEq

namespace PointSpreadFunc

/-- Modelled from the spec: the constructor `PointSpreadFunc(stdev)`, which is not in src.
The PSF supplier, given a standard deviation, returns a normalized square kernel of odd
dimension and its radius; it is the parameter `supplier`. -/
def new (supplier : ℚ → List ℚ × Nat) (stdev : ℚ) : PointSpreadFunc :=
  { stdev := stdev, kernel := (supplier stdev).1, radius := (supplier stdev).2,
    dim := 2 * (supplier stdev).2 + 1 }

/-- Modelled from the spec: `PointSpreadFunc::squarePSF`, which is not in src.  The squared
variant of a PSF has the squared weights of the kernel. -/
def squarePSF (self : PointSpreadFunc) : PointSpreadFunc :=
  { self with kernel := self.kernel.map (fun w => w * w) }

/-- Accessor `PointSpreadFunc::getStdev`. -/
def getStdev (self : PointSpreadFunc) : ℚ := self.stdev

end PointSpreadFunc

namespace RawImage

/-- Modelled from the spec: the value of the cell in column `x` of row `y`, the buffer
being read row by row; `none` outside `[0,w) x [0,h)`. -/
def pixelAt (self : RawImage) (x y : Int) : Option ℚ :=
  if 0 ≤ x ∧ x < self.width ∧ 0 ≤ y ∧ y < self.height then
    self.pixels[(y * self.width + x).toNat]?
  else none

/-- Modelled from the spec: `RawImage::convolve`, which is not in src.  A normalized 2-D
convolution: each cell becomes the kernel-weighted sum of the valid cells under the kernel,
the kernel weight being renormalized over only those valid cells (the cells inside the
grid that are not `NO_DATA`); a `NO_DATA` cell stays `NO_DATA`. -/
def convolve (NO_DATA : ℚ) (self : RawImage) (psf : PointSpreadFunc) : RawImage :=
  { self with
    pixels := (List.range (self.width * self.height)).map (fun (p : Nat) =>
      let x : Int := (p % self.width : Nat)
      let y : Int := (p / self.width : Nat)
      if self.pixels.getD p 0 = NO_DATA then NO_DATA
      else
        let valid := (List.range (psf.dim * psf.dim)).filterMap (fun (c : Nat) =>
          let i : Int := (c % psf.dim : Nat)
          let j : Int := (c / psf.dim : Nat)
          match self.pixelAt (x + i - psf.radius) (y + j - psf.radius) with
          | some v => if v = NO_DATA then none else some (psf.kernel.getD c 0, v)
          | none => none)
        (valid.map (fun kv => kv.1 * kv.2)).sum / (valid.map (fun kv => kv.1)).sum) }

/-- Modelled from the spec: `RawImage::growMask`, which is not in src.  One pass of dilation
by one cell: a cell that is `NO_DATA`, or has a 4-connected neighbour that is, becomes
`NO_DATA`. -/
def growMask (NO_DATA : ℚ) (self : RawImage) : RawImage :=
  { self with
    pixels := (List.range (self.width * self.height)).map (fun (p : Nat) =>
      let x : Int := (p % self.width : Nat)
      let y : Int := (p / self.width : Nat)
      if [(x, y), (x - 1, y), (x + 1, y), (x, y - 1), (x, y + 1)].any
          (fun c => self.pixelAt c.1 c.2 = some NO_DATA) then NO_DATA
      else self.pixels.getD p 0) }

end RawImage

namespace LayeredImage

/-- The method `LayeredImage::growMask`. -/
def growMask (NO_DATA : ℚ) (self : LayeredImage) : LayeredImage :=
  { self with
    science := self.science.growMask NO_DATA
    variance := self.variance.growMask NO_DATA }

/-- The method `LayeredImage::convolve`: the squared PSF is built from the standard
deviation of `psf`. -/
def convolve (NO_DATA : ℚ) (supplier : ℚ → List ℚ × Nat) (self : LayeredImage)
    (psf : PointSpreadFunc) : LayeredImage :=
  let psfSQ := (PointSpreadFunc.new supplier psf.getStdev).squarePSF
  { self with
    science := self.science.convolve NO_DATA psf
    variance := self.variance.convolve NO_DATA psfSQ }

/-- The method `LayeredImage::applyMaskFlags`. -/
def applyMaskFlags (NO_DATA : ℚ) (self : LayeredImage) (flags : Int)
    (exceptions : List Int) : LayeredImage :=
  { self with
    science := self.science.applyMask NO_DATA flags exceptions self.mask
    variance := self.variance.applyMask NO_DATA flags exceptions self.mask }

end LayeredImage

namespace ImageStack

/-- The method `ImageStack::convolve`. -/
def convolve (NO_DATA : ℚ) (supplier : ℚ → List ℚ × Nat) (s : ImageStack)
    (psf : PointSpreadFunc) : ImageStack :=
  { s with images := s.images.map (fun i => i.convolve NO_DATA supplier psf) }

/-- The method `ImageStack::applyMaskFlags`. -/
def applyMaskFlags (NO_DATA : ℚ) (s : ImageStack) (flags : Int) (exceptions : List Int) :
    ImageStack :=
  { s with images := s.images.map (fun i => i.applyMaskFlags NO_DATA flags exceptions) }

/-- The method `ImageStack::applyMaskThreshold`. -/
def applyMaskThreshold (NO_DATA : ℚ) (s : ImageStack) (thresh : ℚ) : ImageStack :=
  { s with images := s.images.map (fun i => i.applyMaskThreshold NO_DATA thresh) }

/-- The method `ImageStack::growMask`. -/
def growMask (NO_DATA : ℚ) (s : ImageStack) : ImageStack :=
  { s with images := s.images.map (fun i => i.growMask NO_DATA) }

/-- The loop `for (auto& i : images) i.subtractTemplate(avgTemplate)` of
`simpleDifference`; `none` when an assertion of `subtractTemplate` fails. -/
def subtractAll (subTemplate : RawImage) : List LayeredImage → Option (List LayeredImage)
  | [] => some []
  | i :: rest =>
    match i.subtractTemplate subTemplate with
    | none => none
    | some i' =>
      match subtractAll subTemplate rest with
      | none => none
      | some rest' => some (i' :: rest')

/-- The method `ImageStack::simpleDifference`; `none` when an assertion fails. -/
def simpleDifference (s : ImageStack) : Option ImageStack :=
  match createTemplate s with
  | none => none
  | some s1 =>
    match subtractAll s1.avgTemplate s1.images with
    | none => none
    | some imgs => some { s1 with images := imgs }

end ImageStack

/-! ## addObject and maskObject -/

namespace RawImage

/-- Modelled from the spec: the place in the buffer of the cell in column `x` of row `y`,
the buffer being read row by row. -/
def cellIndex (self : RawImage) (x y : Nat) : Nat := y * self.width + x

/-- Modelled from the spec: the grid with `value` added, in `float`, to the cell in
column `x` of row `y`. -/
def addToCell (self : RawImage) (x y : Nat) (value : ℚ) : RawImage :=
  { self with
    pixels := self.pixels.set (self.cellIndex x y)
      (toFloat (self.pixels.getD (self.cellIndex x y) 0 + value)) }

/-- Modelled from the spec: adding to the cell at integer coordinates; a coordinate
operation fails (`OutOfBounds`, here `none`) outside `[0,w) x [0,h)`. -/
def addToPixel (self : RawImage) (x y : Int) (value : ℚ) : Option RawImage :=
  if 0 ≤ x ∧ x < self.width ∧ 0 ≤ y ∧ y < self.height then
    some (self.addToCell x.toNat y.toNat value)
  else none

/-- Modelled from the spec: `RawImage::addPixelInterp`, which is not in src.  Bilinear
distribution of `value` onto the 4 integer-coordinate cells surrounding `(x, y)`, weighted
by area overlap, computed in `float`; it fails when one of the cells is outside the grid. -/
def addPixelInterp (self : RawImage) (x y value : ℚ) : Option RawImage :=
  let x0 : Int := ⌊x⌋
  let y0 : Int := ⌊y⌋
  let fx : ℚ := toFloat (x - x0)
  let fy : ℚ := toFloat (y - y0)
  let gx : ℚ := toFloat (1 - fx)
  let gy : ℚ := toFloat (1 - fy)
  match self.addToPixel x0 y0 (toFloat (toFloat (value * gx) * gy)) with
  | none => none
  | some g1 =>
    match g1.addToPixel (x0 + 1) y0 (toFloat (toFloat (value * fx) * gy)) with
    | none => none
    | some g2 =>
      match g2.addToPixel x0 (y0 + 1) (toFloat (toFloat (value * gx) * fy)) with
      | none => none
      | some g3 => g3.addToPixel (x0 + 1) (y0 + 1) (toFloat (toFloat (value * fx) * fy))

end RawImage

namespace LayeredImage

/-- The method `LayeredImage::addObject`.  `RawImage::addPixelInterp` is not in src and is
the parameter `addPixelInterp`; `none` when a call of it fails.  The loop state is the
science layer and `count`.  The positions and the value of each call are computed in
`float`. -/
def addObject (addPixelInterp : RawImage → ℚ → ℚ → ℚ → Option RawImage)
    (self : LayeredImage) (x y flux : ℚ) (psf : PointSpreadFunc) : Option LayeredImage :=
  let k := psf.kernel
  let dim := psf.dim
  let initialX := toFloat (x - toFloat (psf.radius : ℚ))
  let initialY := toFloat (y - toFloat (psf.radius : ℚ))
  let final := forLoop dim (fun i st =>
    forLoop dim (fun j (st : Option (RawImage × Nat)) =>
      match st with
      | none => none
      | some (science, count) =>
        match addPixelInterp science (toFloat (initialX + toFloat (i : ℚ)))
            (toFloat (initialY + toFloat (j : ℚ))) (toFloat (flux * k.getD count 0)) with
        | none => none
        | some science' => some (science', count + 1)) st) (some (self.science, 0))
  match final with
  | none => none
  | some (science, _) => some { self with science := science }

/-- The method `LayeredImage::maskObject`.  `RawImage::maskPixelInterp` is not in src and is
the parameter `maskPixelInterp`; `none` when a call of it fails.  The positions are computed
in `float`. -/
def maskObject (maskPixelInterp : RawImage → ℚ → ℚ → Option RawImage)
    (self : LayeredImage) (x y : ℚ) (psf : PointSpreadFunc) : Option LayeredImage :=
  let dim := psf.dim
  let initialX := toFloat (x - toFloat (psf.radius : ℚ))
  let initialY := toFloat (y - toFloat (psf.radius : ℚ))
  let final := forLoop dim (fun i st =>
    forLoop dim (fun j (st : Option RawImage) =>
      match st with
      | none => none
      | some science =>
        maskPixelInterp science (toFloat (initialX + toFloat (i : ℚ)))
          (toFloat (initialY + toFloat (j : ℚ))))
      st) (some self.science)
  match final with
  | none => none
  | some science => some { self with science := science }

end LayeredImage

/-! ## Sequences of stack operations -/

/-- A call of one of the stack operations, with its arguments. -/
inductive StackOp where
  | setTimes (times : List ℚ)
  | convolve (psf : PointSpreadFunc)
  | applyMaskFlags (flags : Int) (exceptions : List Int)
  | applyMaskThreshold (thresh : ℚ)
  | growMask
  | createMasterMask (flags threshold : Int)
  | applyMasterMask (flags threshold : Int)
  | createTemplate
  | simpleDifference
deriving DecidableEq

namespace ImageStack

/-- The stack after one operation; after a `setTimes` that throws, the stack as the
exception leaves it; `none` when an assertion fails. -/
def step (NO_DATA : ℚ) (supplier : ℚ → List ℚ × Nat) (s : ImageStack) :
    StackOp → Option ImageStack
  | .setTimes times => some (s.setTimes times).state
  | .convolve psf => some (s.convolve NO_DATA supplier psf)
  | .applyMaskFlags flags exceptions => some (s.applyMaskFlags NO_DATA flags exceptions)
  | .applyMaskThreshold thresh => some (s.applyMaskThreshold NO_DATA thresh)
  | .growMask => some (s.growMask NO_DATA)
  | .createMasterMask flags threshold => some (s.createMasterMask flags threshold)
  | .applyMasterMask flags threshold => some (s.applyMasterMask NO_DATA flags threshold)
  | .createTemplate => s.createTemplate
  | .simpleDifference => s.simpleDifference

/-- The stack after a sequence of operations, run in order. -/
def run (NO_DATA : ℚ) (supplier : ℚ → List ℚ × Nat) (s : ImageStack) :
    List StackOp → Option ImageStack
  | [] => some s
  | op :: ops =>
    match step NO_DATA supplier s op with
    | none => none
    | some s' => run NO_DATA supplier s' ops

end ImageStack

/-! ## Specification-level notions -/

/-- Whether the mask value of exposure `im` at pixel `p`, converted to `int` as the code
converts it, has at least one bit of `flags` set. -/
def hasFlag (flags : Int) (p : Nat) (im : LayeredImage) : Bool :=
  decide (Int.land flags (toInt (im.mask.pixels.getD p 0)) ≠ 0)

/-- The number of exposures whose mask value at pixel `p`, converted to `int` as the code
converts it, has at least one bit of `flags` set: the votes that the code counts. -/
def flagVotes (s : ImageStack) (flags : Int) (p : Nat) : Nat :=
  s.images.countP (hasFlag flags p)

/-- The exact sum over all exposures of their science value at pixel `p`. -/
def scienceSum (s : ImageStack) (p : Nat) : ℚ :=
  (s.images.map (fun im => im.science.pixels.getD p 0)).sum

/-- The science values at pixel `p`, over the exposures where that value is not
`NO_DATA`. -/
def validScience (NO_DATA : ℚ) (s : ImageStack) (p : Nat) : List ℚ :=
  (s.images.map (fun im => im.science.pixels.getD p 0)).filter (fun v => v ≠ NO_DATA)

/-- The mean of the science values at pixel `p` over the exposures where that value is not
`NO_DATA`. -/
def noDataFreeMean (NO_DATA : ℚ) (s : ImageStack) (p : Nat) : ℚ :=
  (validScience NO_DATA s p).sum / ((validScience NO_DATA s p).length : ℚ)

/-- The number of exposures whose science value at pixel `p` is `NO_DATA`. -/
def noDataCount (NO_DATA : ℚ) (s : ImageStack) (p : Nat) : Nat :=
  (s.images.map (fun im => im.science.pixels.getD p 0)).count NO_DATA

/-- What identifies an exposure whatever its layers hold: its capture time and its
declared dimensions. -/
def LayeredImage.header (im : LayeredImage) : ℚ × Nat × Nat × Nat :=
  (im.captureTime, im.width, im.height, im.pixelsPerImage)

/-- The offset pairs `(i, j)` with `i, j < dim`, each with the kernel index `i*dim + j`, in
the order `i = 0, 1, ...` and, for each `i`, `j = 0, 1, ...`. -/
def footprint (dim : Nat) : List (Nat × Nat × Nat) :=
  (List.range dim).flatMap (fun i => (List.range dim).map (fun j => (i, j, i * dim + j)))

/-- The calls `call g a` made one after the other for the arguments `a` of a list, each on
the grid the call before it has left; `none` when one of them fails. -/
def runCalls {α : Type} (call : RawImage → α → Option RawImage) :
    List α → RawImage → Option RawImage
  | [], g => some g
  | a :: rest, g =>
    match call g a with
    | none => none
    | some g' => runCalls call rest g'

/-- The number of pixels of a grid that are marked 1. -/
def maskedCount (r : RawImage) : Nat := r.pixels.count 1

/-- The integer part of a value, whatever its size: the integer that a mask value stored as
a float stands for. -/
def integerPart (x : ℚ) : Int := Int.tdiv x.num x.den

/-- Whether the mask value of exposure `im` at pixel `p`, taken as the integer it stands
for, has at least one bit of `flags` set. -/
def hasFlagBit (flags : Int) (p : Nat) (im : LayeredImage) : Bool :=
  decide (Int.land flags (integerPart (im.mask.pixels.getD p 0)) ≠ 0)

/-- The number of exposures whose mask value at pixel `p`, taken as the integer it stands
for, has at least one bit of `flags` set. -/
def flagCount (s : ImageStack) (flags : Int) (p : Nat) : Nat :=
  s.images.countP (hasFlagBit flags p)

/-- The science values at pixel `p` of all exposures, in the order of the exposures. -/
def scienceAt (s : ImageStack) (p : Nat) : List ℚ :=
  s.images.map (fun im => im.science.pixels.getD p 0)

/-- The sum of a list of floats accumulated from 0, left to right, in `float`: each
addition is rounded. -/
def floatSum (l : List ℚ) : ℚ := l.foldl (fun acc v => toFloat (acc + v)) 0

/-- The mean of a list of floats computed in `float`: the accumulated sum divided by the
length converted to `float`, the quotient rounded. -/
def floatMean (l : List ℚ) : ℚ := toFloat (floatSum l / toFloat (l.length : ℚ))

/-- The coordinate of the call of `addObject` and `maskObject` for the offset `i`, as the
code computes it: `x - radius` in `float`, then `+ i` in `float`. -/
def callPosition (x : ℚ) (radius i : Nat) : ℚ :=
  toFloat (toFloat (x - toFloat (radius : ℚ)) + toFloat (i : ℚ))

/-! ## Sample data -/

/-- A 2x1 exposure taken at time `t` with the given layers. -/
def sampleExposure (t : ℚ) (sci msk var : List ℚ) : LayeredImage :=
  { width := 2, height := 1, pixelsPerImage := 2, captureTime := t,
    science := { width := 2, height := 1, pixels := sci },
    mask := { width := 2, height := 1, pixels := msk },
    variance := { width := 2, height := 1, pixels := var } }

/-- A freshly constructed stack of two 2x1 exposures, taken at times 5 and 7. -/
def sampleStack : ImageStack :=
  ImageStack.new
    [sampleExposure 5 [10, 20] [1, 0] [4, 4], sampleExposure 7 [30, 50] [1, 2] [4, 4]]

/-- A freshly constructed stack of two 2x1 exposures, the first with a science pixel equal
to the value -9999 used for `NO_DATA` in the examples. -/
def maskedStack : ImageStack :=
  ImageStack.new
    [sampleExposure 5 [-9999, 20] [1, 0] [4, 4], sampleExposure 7 [30, 50] [1, 2] [4, 4]]

/-- A PSF supplier for the examples: whatever the standard deviation, the normalized 3x3
kernel with weight 1/2 at the centre and 1/8 on the four edge neighbours. -/
def sampleSupplier : ℚ → List ℚ × Nat :=
  fun _ => ([0, 1/8, 0, 1/8, 1/2, 1/8, 0, 1/8, 0], 1)

/-- A sequence of stack operations for the examples: a `setTimes` that returns, one that
throws, and every other operation. -/
def sampleOps : List StackOp :=
  [StackOp.setTimes [3, 8], StackOp.setTimes [1], StackOp.growMask,
   StackOp.applyMaskThreshold 40, StackOp.createMasterMask 1 2, StackOp.applyMasterMask 1 2,
   StackOp.createTemplate, StackOp.simpleDifference,
   StackOp.convolve (PointSpreadFunc.new sampleSupplier 1), StackOp.applyMaskFlags 2 []]

/-- The exposure of the simple image test in kbmod.cpp: 5x5, no noise, pixel variance 0,
taken at time 0. -/
def testImage : LayeredImage :=
  { width := 5, height := 5, pixelsPerImage := 25, captureTime := 0,
    science := RawImage.zeros 5 5, mask := RawImage.zeros 5 5,
    variance := RawImage.zeros 5 5 }

/-- A stand-in for `addPixelInterp` that changes no pixel and appends the position and the
value it is called with to the buffer: it records the calls made. -/
def recordCall (g : RawImage) (x y value : ℚ) : Option RawImage :=
  some { g with pixels := g.pixels ++ [x, y, value] }

/-- A PSF of radius 1 whose normalized 3x3 kernel has weight 1/4 at the centre and 3/16 on
the four edge neighbours. -/
def crossPSF : PointSpreadFunc :=
  { stdev := 1, kernel := [0, 3/16, 0, 3/16, 1/4, 3/16, 0, 3/16, 0], radius := 1, dim := 3 }

/-- A freshly constructed stack of one 2x1 exposure whose mask value at pixel 0 is
3000000000, a float beyond the range of `int`, and at pixel 1 is 512. -/
def overflowStack : ImageStack :=
  ImageStack.new [sampleExposure 0 [10, 20] [3000000000, 512] [4, 5]]

/-- A freshly constructed stack of three 2x1 exposures, with science values 1, 0, 0 at
pixel 0 and 3, 3, 3 at pixel 1. -/
def tripleStack : ImageStack :=
  ImageStack.new
    [sampleExposure 0 [1, 3] [0, 0] [4, 4], sampleExposure 1 [0, 3] [0, 0] [4, 4],
     sampleExposure 2 [0, 3] [0, 0] [4, 4]]

/-! ## Rounding to the nearest float -/

theorem log2Fuel_spec (fuel n : Nat) (hn : 0 < n) (hf : n ≤ fuel) :
    2 ^ log2Fuel fuel n ≤ n ∧ n < 2 ^ (log2Fuel fuel n + 1) := by
  induction fuel generalizing n with
  | zero => omega
  | succ k ih =>
    unfold log2Fuel
    by_cases h2 : n < 2
    · rw [if_pos h2]
      constructor
      · simpa using hn
      · simpa using h2
    · rw [if_neg h2]
      obtain ⟨h1, h3⟩ := ih (n / 2) (by omega) (by omega)
      rw [pow_succ] at h3 ⊢
      rw [pow_succ]
      constructor <;> omega

theorem natLog2_spec (n : Nat) (hn : 0 < n) :
    2 ^ natLog2 n ≤ n ∧ n < 2 ^ (natLog2 n + 1) :=
  log2Fuel_spec n n hn (le_refl n)

theorem roundHalfEven_intCast (n : Int) : roundHalfEven (n : ℚ) = n := by
  simp [roundHalfEven]

theorem roundHalfEven_mono (x y : ℚ) (h : x ≤ y) : roundHalfEven x ≤ roundHalfEven y := by
  have hfl : ⌊x⌋ ≤ ⌊y⌋ := Int.floor_le_floor h
  have hx1 : (⌊x⌋ : ℚ) ≤ x := Int.floor_le x
  have hx2 : x < (⌊x⌋ : ℚ) + 1 := Int.lt_floor_add_one x
  have hy1 : (⌊y⌋ : ℚ) ≤ y := Int.floor_le y
  have hy2 : y < (⌊y⌋ : ℚ) + 1 := Int.lt_floor_add_one y
  unfold roundHalfEven
  rcases lt_or_eq_of_le hfl with hlt | heq
  · have : ⌊x⌋ + 1 ≤ ⌊y⌋ := hlt
    split_ifs <;> omega
  · have hq : (⌊x⌋ : ℚ) = (⌊y⌋ : ℚ) := by rw [heq]
    split_ifs <;> first | omega | (exfalso; linarith)

theorem roundHalfEven_nonneg (x : ℚ) (h : 0 ≤ x) : 0 ≤ roundHalfEven x := by
  have := roundHalfEven_mono 0 x h
  simpa [roundHalfEven] using this


theorem ratio_between_powers (N D : ℚ) (A B : Int) (hD : 0 < D) (hN : 0 ≤ N)
    (ha1 : (2 : ℚ) ^ A ≤ N) (ha2 : N < (2 : ℚ) ^ (A + 1))
    (hb1 : (2 : ℚ) ^ B ≤ D) (hb2 : D < (2 : ℚ) ^ (B + 1)) :
    (2 : ℚ) ^ (A - B - 1) ≤ N / D ∧ N / D < (2 : ℚ) ^ (A - B + 1) := by
  have h2pos : ∀ k : Int, (0 : ℚ) < (2 : ℚ) ^ k := fun k => zpow_pos (by norm_num) k
  constructor
  · have e : A - B - 1 = A - (B + 1) := by ring
    rw [e, zpow_sub₀ (by norm_num : (2 : ℚ) ≠ 0), div_le_div_iff₀ (h2pos _) hD]
    calc (2 : ℚ) ^ A * D ≤ N * D := mul_le_mul_of_nonneg_right ha1 (le_of_lt hD)
      _ ≤ N * (2 : ℚ) ^ (B + 1) := mul_le_mul_of_nonneg_left (le_of_lt hb2) hN
  · have e : A - B + 1 = (A + 1) - B := by ring
    rw [e, zpow_sub₀ (by norm_num : (2 : ℚ) ≠ 0), div_lt_div_iff₀ hD (h2pos _)]
    calc N * (2 : ℚ) ^ B ≤ N * D := mul_le_mul_of_nonneg_left hb1 hN
      _ < (2 : ℚ) ^ (A + 1) * D := mul_lt_mul_of_pos_right ha2 hD

theorem floorLog2_spec (x : ℚ) (hx : 0 < x) :
    (2 : ℚ) ^ floorLog2 x ≤ x ∧ x < (2 : ℚ) ^ (floorLog2 x + 1) := by
  have hnum : 0 < x.num := Rat.num_pos.mpr hx
  have hden : 0 < x.den := x.den_pos
  have hna : 0 < x.num.natAbs := Int.natAbs_pos.mpr (ne_of_gt hnum)
  obtain ⟨ha1, ha2⟩ := natLog2_spec x.num.natAbs hna
  obtain ⟨hb1, hb2⟩ := natLog2_spec x.den hden
  have h2 : (x.num.natAbs : ℚ) = (x.num : ℚ) := by
    rw [Nat.cast_natAbs, abs_of_pos hnum]
  have hxeq : (x.num.natAbs : ℚ) / (x.den : ℚ) = x := by
    rw [h2]
    exact Rat.num_div_den x
  have hdq : (0 : ℚ) < (x.den : ℚ) := by exact_mod_cast hden
  have ha1q : (2 : ℚ) ^ (natLog2 x.num.natAbs : Int) ≤ (x.num.natAbs : ℚ) := by
    rw [zpow_natCast]; exact_mod_cast ha1
  have ha2q : (x.num.natAbs : ℚ) < (2 : ℚ) ^ ((natLog2 x.num.natAbs : Int) + 1) := by
    have : ((natLog2 x.num.natAbs : Int) + 1) = ((natLog2 x.num.natAbs + 1 : Nat) : Int) := by
      simp
    rw [this, zpow_natCast]; exact_mod_cast ha2
  have hb1q : (2 : ℚ) ^ (natLog2 x.den : Int) ≤ (x.den : ℚ) := by
    rw [zpow_natCast]; exact_mod_cast hb1
  have hb2q : (x.den : ℚ) < (2 : ℚ) ^ ((natLog2 x.den : Int) + 1) := by
    have : ((natLog2 x.den : Int) + 1) = ((natLog2 x.den + 1 : Nat) : Int) := by simp
    rw [this, zpow_natCast]; exact_mod_cast hb2
  obtain ⟨hlower, hupper⟩ := ratio_between_powers _ _ _ _ hdq (by positivity) ha1q ha2q
    hb1q hb2q
  rw [hxeq] at hlower hupper
  unfold floorLog2
  by_cases hc : (2 : ℚ) ^ ((natLog2 x.num.natAbs : Int) - (natLog2 x.den : Int)) ≤ x
  · rw [if_pos hc]
    exact ⟨hc, hupper⟩
  · rw [if_neg hc]
    refine ⟨hlower, ?_⟩
    rw [sub_add_cancel]
    exact lt_of_not_le hc

theorem floorLog2_lt (x : ℚ) (hx : 0 < x) (k : Int) (h : x < (2 : ℚ) ^ k) :
    floorLog2 x < k := by
  by_contra hge
  have hle : k ≤ floorLog2 x := not_lt.mp hge
  have h1 : (2 : ℚ) ^ k ≤ (2 : ℚ) ^ floorLog2 x :=
    zpow_le_zpow_right₀ (by norm_num) hle
  have h2 := (floorLog2_spec x hx).1
  linarith

theorem floorLog2_ge (x : ℚ) (hx : 0 < x) (k : Int) (h : (2 : ℚ) ^ k ≤ x) :
    k ≤ floorLog2 x := by
  by_contra hlt
  have hle : floorLog2 x + 1 ≤ k := not_le.mp hlt
  have h1 : (2 : ℚ) ^ (floorLog2 x + 1) ≤ (2 : ℚ) ^ k :=
    zpow_le_zpow_right₀ (by norm_num) hle
  have h2 := (floorLog2_spec x hx).2
  linarith

theorem floorLog2_mono (x y : ℚ) (hx : 0 < x) (h : x ≤ y) : floorLog2 x ≤ floorLog2 y :=
  floorLog2_ge y (lt_of_lt_of_le hx h) _ (le_trans (floorLog2_spec x hx).1 h)


theorem two_zpow_pos (k : Int) : (0 : ℚ) < (2 : ℚ) ^ k := zpow_pos (by norm_num) k

theorem two_zpow_int (j : Int) (hj : 0 ≤ j) : ∃ n : Int, (2 : ℚ) ^ j = (n : ℚ) := by
  obtain ⟨n, rfl⟩ := Int.eq_ofNat_of_zero_le hj
  exact ⟨2 ^ n, by push_cast; rw [zpow_natCast]⟩

theorem two_zpow_div (a b : Int) : (2 : ℚ) ^ a / (2 : ℚ) ^ b = (2 : ℚ) ^ (a - b) :=
  (zpow_sub₀ (by norm_num : (2 : ℚ) ≠ 0) a b).symm

theorem roundMagnitude_zero (prec : Nat) (emin : Int) : roundMagnitude prec emin 0 = 0 := by
  simp [roundMagnitude, roundHalfEven]

theorem roundMagnitude_nonneg (prec : Nat) (emin : Int) (x : ℚ) (hx : 0 ≤ x) :
    0 ≤ roundMagnitude prec emin x := by
  unfold roundMagnitude
  apply mul_nonneg
  · have h : 0 ≤ roundHalfEven (x / (2 : ℚ) ^ ulpExponent prec emin x) :=
      roundHalfEven_nonneg _ (div_nonneg hx (le_of_lt (two_zpow_pos _)))
    exact_mod_cast h
  · exact le_of_lt (two_zpow_pos _)

/-- Rounding keeps a value that the format holds: `m * 2^k` with `m < 2^prec` and
`emin ≤ k`. -/
theorem roundMagnitude_exact (prec : Nat) (emin : Int) (m : Nat) (k : Int)
    (hm : m < 2 ^ prec) (hk : emin ≤ k) :
    roundMagnitude prec emin ((m : ℚ) * (2 : ℚ) ^ k) = (m : ℚ) * (2 : ℚ) ^ k := by
  by_cases hm0 : m = 0
  · subst hm0
    simp [roundMagnitude_zero]
  have hmpos : (0 : ℚ) < (m : ℚ) := by
    have : 0 < m := Nat.pos_of_ne_zero hm0
    exact_mod_cast this
  have hxpos : (0 : ℚ) < (m : ℚ) * (2 : ℚ) ^ k := mul_pos hmpos (two_zpow_pos k)
  have hlt : (m : ℚ) * (2 : ℚ) ^ k < (2 : ℚ) ^ ((prec : Int) + k) := by
    rw [zpow_add₀ (by norm_num : (2 : ℚ) ≠ 0), zpow_natCast]
    apply mul_lt_mul_of_pos_right _ (two_zpow_pos k)
    exact_mod_cast hm
  have hfl := floorLog2_lt _ hxpos _ hlt
  have he : ulpExponent prec emin ((m : ℚ) * (2 : ℚ) ^ k) ≤ k := by
    unfold ulpExponent
    apply max_le
    · omega
    · exact hk
  unfold roundMagnitude
  generalize ulpExponent prec emin ((m : ℚ) * (2 : ℚ) ^ k) = e at he
  obtain ⟨n, hn⟩ := two_zpow_int (k - e) (by omega)
  have hdiv : (m : ℚ) * (2 : ℚ) ^ k / (2 : ℚ) ^ e = (((m : Int) * n : Int) : ℚ) := by
    rw [mul_div_assoc, two_zpow_div, hn]
    push_cast
    rfl
  rw [hdiv, roundHalfEven_intCast]
  push_cast
  rw [← hn, mul_assoc, ← zpow_add₀ (by norm_num : (2 : ℚ) ≠ 0)]
  congr 2
  ring

theorem roundMagnitude_mono (prec : Nat) (emin : Int) (hprec : 1 ≤ prec) (x y : ℚ)
    (hx : 0 ≤ x) (h : x ≤ y) :
    roundMagnitude prec emin x ≤ roundMagnitude prec emin y := by
  rcases eq_or_lt_of_le hx with hx0 | hxpos
  · rw [← hx0, roundMagnitude_zero]
    exact roundMagnitude_nonneg prec emin y (le_trans hx h)
  have hypos : 0 < y := lt_of_lt_of_le hxpos h
  have hfl : floorLog2 x ≤ floorLog2 y := floorLog2_mono x y hxpos h
  have hxs := floorLog2_spec x hxpos
  have hys := floorLog2_spec y hypos
  unfold roundMagnitude
  have hex : ulpExponent prec emin x = max (floorLog2 x - ((prec : Int) - 1)) emin := rfl
  have hey : ulpExponent prec emin y = max (floorLog2 y - ((prec : Int) - 1)) emin := rfl
  generalize ulpExponent prec emin x = ex at hex
  generalize ulpExponent prec emin y = ey at hey
  have hle : ex ≤ ey := by
    rw [hex, hey]
    exact max_le_max (by omega) (le_refl _)
  rcases eq_or_lt_of_le hle with heq | hlt
  · rw [← heq]
    apply mul_le_mul_of_nonneg_right _ (le_of_lt (two_zpow_pos ex))
    have := roundHalfEven_mono _ _
      (div_le_div_of_nonneg_right h (le_of_lt (two_zpow_pos ex)))
    exact_mod_cast this
  · have hey2 : ey = floorLog2 y - ((prec : Int) - 1) := by
      rcases max_choice (floorLog2 y - ((prec : Int) - 1)) emin with hc | hc
      · rw [hey, hc]
      · exfalso
        have h1 : emin ≤ ex := by rw [hex]; exact le_max_right _ _
        rw [hey, hc] at hlt
        omega
    have hex2 : floorLog2 x - ((prec : Int) - 1) ≤ ex := by rw [hex]; exact le_max_left _ _
    have hp : (1 : Int) ≤ (prec : Int) := by exact_mod_cast hprec
    have hxB : x ≤ (2 : ℚ) ^ floorLog2 y := by
      have h1 : (2 : ℚ) ^ (floorLog2 x + 1) ≤ (2 : ℚ) ^ floorLog2 y :=
        zpow_le_zpow_right₀ (by norm_num) (by omega)
      linarith [hxs.2]
    obtain ⟨n, hn⟩ := two_zpow_int (floorLog2 y - ex) (by omega)
    obtain ⟨n', hn'⟩ := two_zpow_int (floorLog2 y - ey) (by omega)
    have h1 : (roundHalfEven (x / (2 : ℚ) ^ ex) : ℚ) * (2 : ℚ) ^ ex ≤ (2 : ℚ) ^ floorLog2 y := by
      have hd : x / (2 : ℚ) ^ ex ≤ (n : ℚ) := by
        rw [← hn, ← two_zpow_div]
        exact div_le_div_of_nonneg_right hxB (le_of_lt (two_zpow_pos ex))
      have hr := roundHalfEven_mono _ _ hd
      rw [roundHalfEven_intCast] at hr
      have hr2 : (roundHalfEven (x / (2 : ℚ) ^ ex) : ℚ) ≤ (n : ℚ) := by exact_mod_cast hr
      calc (roundHalfEven (x / (2 : ℚ) ^ ex) : ℚ) * (2 : ℚ) ^ ex
          ≤ (n : ℚ) * (2 : ℚ) ^ ex :=
            mul_le_mul_of_nonneg_right hr2 (le_of_lt (two_zpow_pos ex))
        _ = (2 : ℚ) ^ floorLog2 y := by
            rw [← hn, ← zpow_add₀ (by norm_num : (2 : ℚ) ≠ 0)]
            congr 1
            ring
    have h2 : (2 : ℚ) ^ floorLog2 y ≤ (roundHalfEven (y / (2 : ℚ) ^ ey) : ℚ) * (2 : ℚ) ^ ey := by
      have hd : (n' : ℚ) ≤ y / (2 : ℚ) ^ ey := by
        rw [← hn', ← two_zpow_div]
        exact div_le_div_of_nonneg_right hys.1 (le_of_lt (two_zpow_pos ey))
      have hr := roundHalfEven_mono _ _ hd
      rw [roundHalfEven_intCast] at hr
      have hr2 : (n' : ℚ) ≤ (roundHalfEven (y / (2 : ℚ) ^ ey) : ℚ) := by exact_mod_cast hr
      calc (2 : ℚ) ^ floorLog2 y = (n' : ℚ) * (2 : ℚ) ^ ey := by
            rw [← hn', ← zpow_add₀ (by norm_num : (2 : ℚ) ≠ 0)]
            congr 1
            ring
        _ ≤ (roundHalfEven (y / (2 : ℚ) ^ ey) : ℚ) * (2 : ℚ) ^ ey :=
            mul_le_mul_of_nonneg_right hr2 (le_of_lt (two_zpow_pos ey))
    exact le_trans h1 h2

theorem roundBinary_zero (prec : Nat) (emin : Int) : roundBinary prec emin 0 = 0 := by
  simp [roundBinary, roundMagnitude_zero]

theorem roundBinary_mono (prec : Nat) (emin : Int) (hprec : 1 ≤ prec) (x y : ℚ)
    (h : x ≤ y) : roundBinary prec emin x ≤ roundBinary prec emin y := by
  unfold roundBinary
  by_cases hy : y < 0
  · have hx : x < 0 := lt_of_le_of_lt h hy
    rw [if_pos hx, if_pos hy]
    have := roundMagnitude_mono prec emin hprec (-y) (-x) (by linarith) (by linarith)
    linarith
  · rw [if_neg hy]
    by_cases hx : x < 0
    · rw [if_pos hx]
      have h1 := roundMagnitude_nonneg prec emin (-x) (by linarith)
      have h2 := roundMagnitude_nonneg prec emin y (not_lt.mp hy)
      linarith
    · rw [if_neg hx]
      exact roundMagnitude_mono prec emin hprec x y (not_lt.mp hx) h

/-- Rounding to nearest never reverses the order of two values. -/
theorem toFloat_mono (x y : ℚ) (h : x ≤ y) : toFloat x ≤ toFloat y :=
  roundBinary_mono 24 (-149) (by decide) x y h

theorem toDouble_mono (x y : ℚ) (h : x ≤ y) : toDouble x ≤ toDouble y :=
  roundBinary_mono 53 (-1074) (by decide) x y h

theorem toFloat_zero : toFloat 0 = 0 := roundBinary_zero 24 (-149)

theorem toDouble_zero : toDouble 0 = 0 := roundBinary_zero 53 (-1074)

/-- A natural number up to 2^24 is a float. -/
theorem toFloat_natCast (n : Nat) (hn : n ≤ 2 ^ 24) : toFloat (n : ℚ) = (n : ℚ) := by
  unfold toFloat roundBinary
  have hnn : ¬ ((n : ℚ) < 0) := not_lt.mpr (Nat.cast_nonneg n)
  rw [if_neg hnn]
  rcases Nat.lt_or_ge n (2 ^ 24) with hlt | hge
  · have := roundMagnitude_exact 24 (-149) n 0 hlt (by decide)
    simpa using this
  · have hn2 : n = 2 ^ 24 := le_antisymm hn hge
    have := roundMagnitude_exact 24 (-149) 1 24 (by decide) (by decide)
    rw [hn2]
    have e : ((2 ^ 24 : Nat) : ℚ) = ((1 : Nat) : ℚ) * (2 : ℚ) ^ (24 : Int) := by norm_num
    rw [e]
    exact this

/-- The comparison of a count below 2^24 with an `int` converted to float is the
comparison of the integers. -/
theorem lt_toFloat_intCast (v : Nat) (t : Int) (hv : v < 2 ^ 24) :
    (v : ℚ) < toFloat (t : ℚ) ↔ (v : Int) < t := by
  constructor
  · intro h
    by_contra hge
    have hle : (t : ℚ) ≤ (v : ℚ) := by
      have : t ≤ (v : Int) := not_lt.mp hge
      exact_mod_cast this
    have := toFloat_mono _ _ hle
    rw [toFloat_natCast v (le_of_lt hv)] at this
    linarith
  · intro h
    have hle : ((v + 1 : Nat) : ℚ) ≤ (t : ℚ) := by
      have : ((v + 1 : Nat) : Int) ≤ t := by push_cast; omega
      exact_mod_cast this
    have := toFloat_mono _ _ hle
    rw [toFloat_natCast (v + 1) hv] at this
    have h2 : (v : ℚ) < ((v + 1 : Nat) : ℚ) := by push_cast; linarith
    linarith


theorem roundMagnitude_idem (prec : Nat) (emin : Int) (hprec : 1 ≤ prec) (x : ℚ)
    (hx : 0 ≤ x) :
    roundMagnitude prec emin (roundMagnitude prec emin x) = roundMagnitude prec emin x := by
  rcases eq_or_lt_of_le hx with hx0 | hxpos
  · rw [← hx0, roundMagnitude_zero, roundMagnitude_zero]
  have hxs := floorLog2_spec x hxpos
  have hp : (1 : Int) ≤ (prec : Int) := by exact_mod_cast hprec
  have he1 : floorLog2 x - ((prec : Int) - 1) ≤ ulpExponent prec emin x := le_max_left _ _
  have he2 : emin ≤ ulpExponent prec emin x := le_max_right _ _
  have hR : roundMagnitude prec emin x =
      (roundHalfEven (x / (2 : ℚ) ^ ulpExponent prec emin x) : ℚ) *
        (2 : ℚ) ^ ulpExponent prec emin x := rfl
  generalize ulpExponent prec emin x = e at he1 he2 hR
  have hn0 : 0 ≤ roundHalfEven (x / (2 : ℚ) ^ e) :=
    roundHalfEven_nonneg _ (div_nonneg hx (le_of_lt (two_zpow_pos e)))
  have hnle : roundHalfEven (x / (2 : ℚ) ^ e) ≤ 2 ^ prec := by
    have hd : x / (2 : ℚ) ^ e ≤ (((2 : Int) ^ prec : Int) : ℚ) := by
      rw [div_le_iff₀ (two_zpow_pos e)]
      push_cast
      rw [← zpow_natCast, ← zpow_add₀ (by norm_num : (2 : ℚ) ≠ 0)]
      have h1 : (2 : ℚ) ^ (floorLog2 x + 1) ≤ (2 : ℚ) ^ ((prec : Int) + e) :=
        zpow_le_zpow_right₀ (by norm_num) (by omega)
      linarith [hxs.2]
    have := roundHalfEven_mono _ _ hd
    rw [roundHalfEven_intCast] at this
    exact this
  obtain ⟨m, hm⟩ := Int.eq_ofNat_of_zero_le hn0
  rw [hR, hm]
  rw [hm] at hnle
  have hmle : m ≤ 2 ^ prec := by exact_mod_cast hnle
  rcases Nat.lt_or_ge m (2 ^ prec) with hlt | hge
  · have := roundMagnitude_exact prec emin m e hlt he2
    simpa using this
  · have hm2 : m = 2 ^ prec := le_antisymm hmle hge
    have h1 : 1 < 2 ^ prec := Nat.one_lt_two_pow (by omega)
    have := roundMagnitude_exact prec emin 1 ((prec : Int) + e) h1 (by omega)
    have e2 : (((m : Int) : ℚ)) * (2 : ℚ) ^ e = ((1 : Nat) : ℚ) * (2 : ℚ) ^ ((prec : Int) + e) := by
      rw [hm2, zpow_add₀ (by norm_num : (2 : ℚ) ≠ 0), zpow_natCast]
      push_cast
      ring
    rw [e2]
    exact this

theorem roundBinary_idem (prec : Nat) (emin : Int) (hprec : 1 ≤ prec) (x : ℚ) :
    roundBinary prec emin (roundBinary prec emin x) = roundBinary prec emin x := by
  unfold roundBinary
  by_cases hx : x < 0
  · rw [if_pos hx]
    have hnn := roundMagnitude_nonneg prec emin (-x) (by linarith)
    rcases eq_or_lt_of_le hnn with h0 | hpos
    · rw [← h0]
      simp [roundMagnitude_zero]
    · have hneg : -roundMagnitude prec emin (-x) < 0 := by linarith
      rw [if_pos hneg, neg_neg, roundMagnitude_idem prec emin hprec (-x) (by linarith)]
  · rw [if_neg hx]
    have hnn := roundMagnitude_nonneg prec emin x (not_lt.mp hx)
    rw [if_neg (not_lt.mpr hnn), roundMagnitude_idem prec emin hprec x (not_lt.mp hx)]

/-- A rounded value is a float: rounding it again changes nothing. -/
theorem toFloat_idem (x : ℚ) : toFloat (toFloat x) = toFloat x :=
  roundBinary_idem 24 (-149) (by decide) x

/-! ## Buffers and loops -/

theorem set_getD_self (l : List ℚ) (i : Nat) : l.set i (l.getD i 0) = l := by
  apply List.ext_getElem?
  intro j
  by_cases h : i = j
  · subst h
    rw [List.getElem?_set]
    simp only [if_true, List.getD_eq_getElem?_getD]
    by_cases hi : i < l.length
    · simp [hi, List.getElem?_eq_getElem hi]
    · simp [hi, List.getElem?_eq_none (Nat.le_of_not_lt hi)]
  · simp [List.getElem?_set_ne h]

/-- A loop whose iteration `i` rewrites cell `i` alone, from its current value, rewrites
every cell below the bound once and leaves the others alone. -/
theorem forLoop_cellwise (f : Nat → ℚ → ℚ) (body : Nat → List ℚ → List ℚ)
    (hbody : ∀ i l, body i l = l.set i (f i (l.getD i 0))) (n : Nat) (l : List ℚ) (p : Nat) :
    (forLoop n body l)[p]? = (l[p]?).map (fun x => if p < n then f p x else x) := by
  induction n with
  | zero => simp [forLoop]
  | succ k ih =>
    rw [forLoop, hbody, List.getElem?_set']
    by_cases h : k = p
    · subst h
      simp only [if_true, List.getD_eq_getElem?_getD, ih]
      cases l[k]? <;> simp
    · rw [if_neg h, ih]
      have : (p < k + 1) = (p < k) := by
        apply propext
        constructor
        · intro hp; omega
        · intro hp; omega
      simp only [this]

theorem forLoop_cellwise_length (f : Nat → ℚ → ℚ) (body : Nat → List ℚ → List ℚ)
    (hbody : ∀ i l, body i l = l.set i (f i (l.getD i 0))) (n : Nat) (l : List ℚ) :
    (forLoop n body l).length = l.length := by
  induction n with
  | zero => simp [forLoop]
  | succ k ih => rw [forLoop, hbody, List.length_set, ih]

/-! ## The voting loop of createMasterMask -/

/-- The counting pass of `createMasterMask` over the exposures `imgs`, on the buffer `m`:
one float increment for each vote. -/
theorem votingLoop_cell (flags : Int) (n : Nat) (imgs : List LayeredImage) (m : List ℚ)
    (p : Nat) :
    (imgs.foldl (fun masterM img =>
      forLoop n (fun pixel masterM =>
        if Int.land flags (toInt (img.mask.pixels.getD pixel 0)) ≠ 0 then
          masterM.set pixel (toFloat (masterM.getD pixel 0 + 1))
        else masterM) masterM) m)[p]? =
      (m[p]?).map (fun x =>
        if p < n then (fun y => toFloat (y + 1))^[imgs.countP (hasFlag flags p)] x else x) := by
  induction imgs generalizing m with
  | nil => simp
  | cons img rest ih =>
    rw [List.foldl_cons, ih]
    rw [forLoop_cellwise
      (fun i x =>
        if Int.land flags (toInt (img.mask.pixels.getD i 0)) ≠ 0 then toFloat (x + 1) else x)]
    · rw [Option.map_map]
      congr 1
      funext x
      by_cases hp : p < n
      · by_cases hf : Int.land flags (toInt (img.mask.pixels.getD p 0)) = 0
        · simp [hp, hf, hasFlag, List.countP_cons, -List.getD_eq_getElem?_getD]
        · simp [hp, hf, hasFlag, List.countP_cons, -List.getD_eq_getElem?_getD,
            Function.iterate_succ_apply]
      · simp [hp]
    · intro i l
      by_cases hf : Int.land flags (toInt (img.mask.pixels.getD i 0)) = 0
      · simp only [hf, ne_eq, not_true_eq_false, if_false]
        exact (set_getD_self l i).symm
      · simp only [hf, ne_eq, not_false_eq_true, if_true]

/-- Cell `p` of the master mask after `createMasterMask`, from any starting state: the old
value incremented once for each vote, compared with the threshold. -/
theorem createMasterMask_cell (s : ImageStack) (flags threshold : Int) (p : Nat) :
    (s.createMasterMask flags threshold).masterMask.pixels[p]? =
      (s.masterMask.pixels[p]?).map (fun x =>
        if p < s.getPPI then
          (if (fun y => toFloat (y + 1))^[flagVotes s flags p] x < toFloat (threshold : ℚ)
            then 0 else 1)
        else x) := by
  unfold ImageStack.createMasterMask
  simp only
  rw [forLoop_cellwise (fun _ x => if x < toFloat (threshold : ℚ) then 0 else 1) _
    (fun _ _ => rfl)]
  rw [votingLoop_cell, Option.map_map]
  congr 1
  funext x
  by_cases hp : p < s.getPPI
  · simp [hp, flagVotes]
  · simp [hp]

theorem createMasterMask_length (s : ImageStack) (flags threshold : Int) :
    (s.createMasterMask flags threshold).masterMask.pixels.length =
      s.masterMask.pixels.length := by
  have h : ∀ p : Nat, (s.createMasterMask flags threshold).masterMask.pixels[p]? = none ↔
      s.masterMask.pixels[p]? = none := by
    intro p
    rw [createMasterMask_cell]
    simp
  have h1 := h s.masterMask.pixels.length
  have h2 := h (s.createMasterMask flags threshold).masterMask.pixels.length
  simp only [List.getElem?_eq_none_iff, le_refl, iff_true, true_iff] at h1 h2
  omega

theorem count_one_le_of_cellwise (a b : List ℚ) (hlen : a.length = b.length)
    (h : ∀ p : Nat, a[p]? = some 1 → b[p]? = some 1) : a.count 1 ≤ b.count 1 := by
  induction a generalizing b with
  | nil => simp
  | cons x a ih =>
    cases b with
    | nil => simp at hlen
    | cons y b =>
      have htail : a.count 1 ≤ b.count 1 := by
        apply ih
        · simpa using hlen
        · intro p hp
          simpa using h (p + 1) (by simpa using hp)
      have hhead : x = 1 → y = 1 := by
        intro hx
        simpa using h 0 (by simp [hx])
      rw [List.count_cons, List.count_cons]
      by_cases hx : x = 1
      · simp [hx, hhead hx, htail]
      · by_cases hy : y = 1
        · simp [hx, hy]
          omega
        · simp [hx, hy, htail]

/-- A float counter that starts at 0 holds the number of its increments, up to 2^24. -/
theorem floatCounter_exact (v : Nat) (hv : v ≤ 2 ^ 24) :
    (fun y => toFloat (y + 1))^[v] (0 : ℚ) = (v : ℚ) := by
  induction v with
  | zero => simp
  | succ k ih =>
    rw [Function.iterate_succ_apply', ih (by omega)]
    have := toFloat_natCast (k + 1) hv
    push_cast at this ⊢
    exact this

/-- A float counter does not end lower for having started higher. -/
theorem floatCounter_mono (v : Nat) (x y : ℚ) (h : x ≤ y) :
    (fun y => toFloat (y + 1))^[v] x ≤ (fun y => toFloat (y + 1))^[v] y := by
  have hm : Monotone (fun y : ℚ => toFloat (y + 1)) := by
    intro a b hab
    exact toFloat_mono _ _ (by linarith)
  exact hm.iterate v h

/-- A mask value in the range of a non-negative `int` is converted to the integer it stands
for. -/
theorem toInt_of_range (x : ℚ) (h0 : 0 ≤ x) (h1 : x < 2 ^ 31) : toInt x = integerPart x := by
  unfold toInt integerPart
  have hnum : 0 ≤ x.num := Rat.num_nonneg.mpr h0
  have hden : (0 : Int) < (x.den : Int) := by exact_mod_cast x.den_pos
  have htd : Int.tdiv x.num x.den = x.num / (x.den : Int) :=
    Int.tdiv_eq_ediv hnum (le_of_lt hden)
  have hfloor : ⌊x⌋ = x.num / (x.den : Int) := Rat.floor_def' x
  have hlo : 0 ≤ x.num / (x.den : Int) := Int.ediv_nonneg hnum (le_of_lt hden)
  have hhi : x.num / (x.den : Int) < 2 ^ 31 := by
    rw [← hfloor]
    have : ⌊x⌋ < (2 ^ 31 : Int) := by
      rw [Int.floor_lt]
      exact_mod_cast h1
    exact this
  rw [htd, if_pos ⟨by omega, hhi⟩]

/-- On mask values in the range of a non-negative `int` the votes that the code counts are
the exposures whose mask value has a bit of `flags` set. -/
theorem flagVotes_eq_flagCount (s : ImageStack) (flags : Int) (p : Nat)
    (hmask : ∀ im ∈ s.images, p < im.mask.pixels.length ∧
      0 ≤ im.mask.pixels.getD p 0 ∧ im.mask.pixels.getD p 0 < 2 ^ 31) :
    flagVotes s flags p = flagCount s flags p := by
  unfold flagVotes flagCount
  apply List.countP_congr
  intro im him
  obtain ⟨_, h0, h1⟩ := hmask im him
  unfold hasFlag hasFlagBit
  rw [toInt_of_range _ h0 h1]

/-- On a master mask of zeros and a stack of fewer than 2^24 exposures, cell `p` of the
master mask after `createMasterMask` is 1 when the votes reach the threshold and 0 when they
do not. -/
theorem createMasterMask_votes (s : ImageStack) (flags threshold : Int) (p : Nat)
    (hzero : ∀ x ∈ s.masterMask.pixels, x = 0) (hp : p < s.getPPI)
    (hlen : p < s.masterMask.pixels.length) (hcount : s.images.length < 2 ^ 24) :
    (s.createMasterMask flags threshold).masterMask.pixels[p]? =
      some (if threshold ≤ (flagVotes s flags p : Int) then 1 else 0) := by
  rw [createMasterMask_cell, List.getElem?_eq_getElem hlen]
  have hx : s.masterMask.pixels[p] = 0 := hzero _ (List.getElem_mem hlen)
  have hv : flagVotes s flags p < 2 ^ 24 :=
    lt_of_le_of_lt (List.countP_le_length _) hcount
  simp only [Option.map_some', hp, if_true, hx, floatCounter_exact _ (le_of_lt hv),
    lt_toFloat_intCast _ _ hv]
  by_cases ht : threshold ≤ (flagVotes s flags p : Int)
  · rw [if_neg (not_lt.mpr ht), if_pos ht]
  · rw [if_pos (not_le.mp ht), if_neg ht]

/-! ## C1, C2: the master mask -/

/-- C1 (as amended): on a stack of fewer than 2^24 exposures whose master mask is all
zeros, and at a pixel `p` that the mask layer of every exposure holds with a value that is
at least 0 and below 2^31, after `createMasterMask(flags, threshold)` the master mask at `p`
is 1 if the number of exposures whose mask value at `p`, taken as an integer, has a bit of
`flags` set is at least `threshold`, and 0 otherwise. -/
theorem createMasterMask_voting (s : ImageStack) (flags threshold : Int) (p : Nat)
    (hzero : ∀ x ∈ s.masterMask.pixels, x = 0) (hp : p < s.getPPI)
    (hlen : p < s.masterMask.pixels.length) (hcount : s.images.length < 2 ^ 24)
    (hmask : ∀ im ∈ s.images, p < im.mask.pixels.length ∧
      0 ≤ im.mask.pixels.getD p 0 ∧ im.mask.pixels.getD p 0 < 2 ^ 31) :
    (s.createMasterMask flags threshold).masterMask.pixels[p]? =
      some (if threshold ≤ (flagCount s flags p : Int) then 1 else 0) := by
  rw [← flagVotes_eq_flagCount s flags p hmask]
  exact createMasterMask_votes s flags threshold p hzero hp hlen hcount

theorem createMasterMask_voting_witness :
    (sampleStack.createMasterMask 1 2).masterMask.pixels[0]? =
      some (if (2 : Int) ≤ (flagCount sampleStack 1 0 : Int) then 1 else 0) ∧
    (sampleStack.createMasterMask 1 2).masterMask.pixels[1]? =
      some (if (2 : Int) ≤ (flagCount sampleStack 1 1 : Int) then 1 else 0) ∧
    flagCount sampleStack 1 0 = 2 ∧ flagCount sampleStack 1 1 = 0 :=
  ⟨createMasterMask_voting sampleStack 1 2 0 (by decide) (by decide) (by decide)
      (by decide) (by decide!),
   createMasterMask_voting sampleStack 1 2 1 (by decide) (by decide) (by decide)
      (by decide) (by decide!),
   by decide!, by decide!⟩

/-- C1 (counterexample): the mask value 3000000000 is a float and, as an integer, has the
bit 512 set, but it is beyond the range of `int`: the conversion yields `INT_MIN`, which has
no bit of 512, and the vote is not counted.  With the one exposure of mask
`[3000000000, 512]`, `createMasterMask(512, 1)` leaves the master mask `[0, 1]`, although
one exposure, which is at least the threshold 1, has the bit set at pixel 0.  Besides, a
float counter that has reached 2^24 = 16777216 is not changed by one more increment. -/
theorem createMasterMask_cast_counterexample :
    toFloat 3000000000 = 3000000000 ∧
    (overflowStack.createMasterMask 512 1).masterMask.pixels = [0, 1] ∧
    flagCount overflowStack 512 0 = 1 ∧
    (overflowStack.createMasterMask 512 1).masterMask.pixels[0]? ≠
      some (if (1 : Int) ≤ (flagCount overflowStack 512 0 : Int) then 1 else 0) ∧
    toFloat (16777216 + 1) = 16777216 := by
  decide!

/-- C2: from the same starting state and with the same flags, every pixel that
`createMasterMask` marks 1 at threshold `t2` is also marked 1 at any threshold `t1 ≤ t2`,
so the number of masked pixels does not grow with the threshold. -/
theorem createMasterMask_monotone (s : ImageStack) (flags t1 t2 : Int) (h : t1 ≤ t2) :
    (∀ p : Nat, (s.createMasterMask flags t2).masterMask.pixels[p]? = some 1 →
      (s.createMasterMask flags t1).masterMask.pixels[p]? = some 1) ∧
    maskedCount (s.createMasterMask flags t2).masterMask ≤
      maskedCount (s.createMasterMask flags t1).masterMask := by
  have hcell : ∀ p : Nat, (s.createMasterMask flags t2).masterMask.pixels[p]? = some 1 →
      (s.createMasterMask flags t1).masterMask.pixels[p]? = some 1 := by
    intro p
    rw [createMasterMask_cell, createMasterMask_cell]
    cases s.masterMask.pixels[p]? with
    | none => simp
    | some x =>
      simp only [Option.map_some', Option.some.injEq]
      by_cases hp : p < s.getPPI
      · simp only [hp, if_true]
        have hq : toFloat (t1 : ℚ) ≤ toFloat (t2 : ℚ) :=
          toFloat_mono _ _ (by exact_mod_cast h)
        by_cases h2 : (fun y => toFloat (y + 1))^[flagVotes s flags p] x < toFloat (t2 : ℚ)
        · simp [h2]
        · have h1 : ¬ ((fun y => toFloat (y + 1))^[flagVotes s flags p] x <
              toFloat (t1 : ℚ)) := by
            intro hlt
            exact h2 (lt_of_lt_of_le hlt hq)
          simp [h1]
      · simp [hp]
  refine ⟨hcell, ?_⟩
  unfold maskedCount
  apply count_one_le_of_cellwise _ _ _ hcell
  rw [createMasterMask_length, createMasterMask_length]

theorem createMasterMask_monotone_witness :
    maskedCount (sampleStack.createMasterMask 3 2).masterMask ≤
      maskedCount (sampleStack.createMasterMask 3 1).masterMask :=
  (createMasterMask_monotone sampleStack 3 1 2 (by decide)).2

/-! ## C3, C4: the relative times -/

theorem setTimeOrigin_cell (s : ImageStack) (i : Nat) :
    s.setTimeOrigin.imageTimes[i]? =
      (s.imageTimes[i]?).map (fun t => toFloat (toDouble (t - s.imageTimes.getD 0 0))) := by
  simp [ImageStack.setTimeOrigin]

/-- C3 (as amended): `setTimes(times)` throws exactly when the length of `times` differs
from the image count; when it throws the stack, and so its stored times, is unchanged; when
it returns on a non-empty stack the stored time `i` is the float nearest to the double
nearest to `times[i] - times[0]`, for every `i` whose difference is within the range of
`float`. -/
theorem setTimes_spec (s : ImageStack) (times : List ℚ) :
    ((s.setTimes times).thrown ≠ none ↔ times.length ≠ s.imgCount) ∧
    ((s.setTimes times).thrown ≠ none → (s.setTimes times).state = s) ∧
    ((s.setTimes times).thrown = none → s.images ≠ [] →
      (s.setTimes times).state.imageTimes.length = times.length ∧
      ∀ i : Nat, i < times.length → |times.getD i 0 - times.getD 0 0| ≤ maxFloat →
        (s.setTimes times).state.imageTimes[i]? =
          some (toFloat (toDouble (times.getD i 0 - times.getD 0 0)))) ∧
    (s.images.length < 2 ^ 32 → s.imgCount = s.images.length) := by
  refine ⟨?_, ?_, ?_, ?_⟩
  · unfold ImageStack.setTimes
    by_cases h : times.length = s.imgCount
    · simp [h]
    · simp [h]
  · unfold ImageStack.setTimes
    by_cases h : times.length = s.imgCount
    · simp [h]
    · simp [h]
  · intro hok _
    unfold ImageStack.setTimes at hok ⊢
    by_cases h : times.length = s.imgCount
    · rw [if_neg (not_not.mpr h)]
      refine ⟨by simp [ImageStack.setTimeOrigin], ?_⟩
      intro i hi _
      rw [setTimeOrigin_cell]
      simp [List.getElem?_eq_getElem hi]
    · simp [h] at hok
  · intro h
    exact Nat.mod_eq_of_lt h

theorem setTimes_spec_witness :
    (sampleStack.setTimes [3, 8]).thrown = none ∧
    (sampleStack.setTimes [3, 8]).state.imageTimes[1]? =
      some (toFloat (toDouble (List.getD [3, 8] 1 0 - List.getD [3, 8] 0 0))) ∧
    toFloat (toDouble (List.getD [3, 8] 1 0 - List.getD [3, 8] 0 0)) = 5 ∧
    (sampleStack.setTimes [3]).state = sampleStack :=
  ⟨by decide,
   ((setTimes_spec sampleStack [3, 8]).2.2.1 (by decide) (by decide)).2 1 (by decide)
     (by decide!),
   by decide!,
   (setTimes_spec sampleStack [3]).2.1 (by decide)⟩

/-- C3 (counterexample): the times -100000000, 1 and 0.5 are floats, and `setTimes` on a
stack of three exposures returns, but the stored times are `[0, 100000000, 100000000]`: the
difference 1 - (-100000000) = 100000001 is not a float and is stored as 100000000, not as
`times[1] - times[0]`. -/
theorem setTimes_rounding_counterexample :
    [-100000000, 1, 1 / 2].map toFloat = [-100000000, 1, 1 / 2] ∧
    (tripleStack.setTimes [-100000000, 1, 1 / 2]).thrown = none ∧
    (tripleStack.setTimes [-100000000, 1, 1 / 2]).state.imageTimes =
      [0, 100000000, 100000000] ∧
    (tripleStack.setTimes [-100000000, 1, 1 / 2]).state.imageTimes[1]? ≠
      some ((1 : ℚ) - (-100000000)) := by
  decide!

/-- C4 (as amended): after `setTimeOrigin` on a non-empty sequence of times the first time
is 0, every time whose difference with the original first time is within the range of
`float` is the float nearest to the double nearest to that difference, and the order
between any two times is kept in one direction: a time that was not later than another is
not later than it afterwards. -/
theorem setTimeOrigin_normalizes (s : ImageStack) (h : s.imageTimes ≠ []) :
    s.setTimeOrigin.imageTimes[0]? = some 0 ∧
    s.setTimeOrigin.imageTimes.length = s.imageTimes.length ∧
    (∀ i : Nat, i < s.imageTimes.length →
      |s.imageTimes.getD i 0 - s.imageTimes.getD 0 0| ≤ maxFloat →
      s.setTimeOrigin.imageTimes[i]? =
        some (toFloat (toDouble (s.imageTimes.getD i 0 - s.imageTimes.getD 0 0)))) ∧
    (∀ i j : Nat, i < s.imageTimes.length → j < s.imageTimes.length →
      s.imageTimes.getD i 0 ≤ s.imageTimes.getD j 0 →
        s.setTimeOrigin.imageTimes.getD i 0 ≤ s.setTimeOrigin.imageTimes.getD j 0) := by
  have hpos : 0 < s.imageTimes.length := List.length_pos.mpr h
  have hcell : ∀ i : Nat, i < s.imageTimes.length →
      s.setTimeOrigin.imageTimes[i]? =
        some (toFloat (toDouble (s.imageTimes.getD i 0 - s.imageTimes.getD 0 0))) := by
    intro i hi
    rw [setTimeOrigin_cell]
    simp [List.getElem?_eq_getElem hi]
  refine ⟨?_, by simp [ImageStack.setTimeOrigin], fun i hi _ => hcell i hi, ?_⟩
  · rw [hcell 0 hpos, sub_self, toDouble_zero, toFloat_zero]
  · intro i j hi hj hle
    rw [List.getD_eq_getElem?_getD s.setTimeOrigin.imageTimes,
      List.getD_eq_getElem?_getD s.setTimeOrigin.imageTimes, hcell i hi, hcell j hj]
    exact toFloat_mono _ _ (toDouble_mono _ _ (by linarith))

theorem setTimeOrigin_normalizes_witness :
    ({ sampleStack with imageTimes := [5, 7] } : ImageStack).setTimeOrigin.imageTimes[0]? =
      some 0 ∧
    ({ sampleStack with imageTimes := [5, 7] } : ImageStack).setTimeOrigin.imageTimes =
      [0, 2] :=
  ⟨(setTimeOrigin_normalizes { sampleStack with imageTimes := [5, 7] } (by decide)).1,
   by decide!⟩

/-- C4 (counterexample): on the float times -100000000, 1 and 0.5 `setTimeOrigin` leaves
`[0, 100000000, 100000000]`.  The second time is not the difference 100000001, and the
order between the second and the third time is not the same before and after: 1 ≤ 0.5 is
false before, 100000000 ≤ 100000000 is true after. -/
theorem setTimeOrigin_order_counterexample :
    [-100000000, 1, 1 / 2].map toFloat = [-100000000, 1, 1 / 2] ∧
    ({ tripleStack with imageTimes := [-100000000, 1, 1 / 2] } :
      ImageStack).setTimeOrigin.imageTimes = [0, 100000000, 100000000] ∧
    ¬ (List.getD [-100000000, 1, 1 / 2] 1 (0 : ℚ) ≤ List.getD [-100000000, 1, 1 / 2] 2 0) ∧
    ({ tripleStack with imageTimes := [-100000000, 1, 1 / 2] } :
        ImageStack).setTimeOrigin.imageTimes.getD 1 0 ≤
      ({ tripleStack with imageTimes := [-100000000, 1, 1 / 2] } :
        ImageStack).setTimeOrigin.imageTimes.getD 2 0 := by
  decide!

/-! ## C5: the layer setters -/

/-- C5: each of `setScience`, `setMask` and `setVariance` throws exactly when the width or
the height of the replacement grid differs from the declared one; when it throws the
exposure is unchanged; when it returns, the named layer is the given grid and nothing else
has changed. -/
theorem setters_spec (self : LayeredImage) (im : RawImage) :
    (((self.setScience im).thrown ≠ none ↔
        (im.width ≠ self.width ∨ im.height ≠ self.height)) ∧
      ((self.setScience im).thrown ≠ none → (self.setScience im).state = self) ∧
      ((self.setScience im).thrown = none →
        (self.setScience im).state = { self with science := im })) ∧
    (((self.setMask im).thrown ≠ none ↔
        (im.width ≠ self.width ∨ im.height ≠ self.height)) ∧
      ((self.setMask im).thrown ≠ none → (self.setMask im).state = self) ∧
      ((self.setMask im).thrown = none →
        (self.setMask im).state = { self with mask := im })) ∧
    (((self.setVariance im).thrown ≠ none ↔
        (im.width ≠ self.width ∨ im.height ≠ self.height)) ∧
      ((self.setVariance im).thrown ≠ none → (self.setVariance im).state = self) ∧
      ((self.setVariance im).thrown = none →
        (self.setVariance im).state = { self with variance := im })) := by
  unfold LayeredImage.setScience LayeredImage.setMask LayeredImage.setVariance
    LayeredImage.checkDims
  by_cases hw : im.width = self.width
  · by_cases hh : im.height = self.height
    · simp [hw, hh]
    · simp [hw, hh]
  · simp [hw]

theorem setters_spec_witness :
    ((sampleExposure 0 [1, 2] [0, 0] [4, 4]).setMask
        { width := 2, height := 1, pixels := [1, 1] }).state =
      sampleExposure 0 [1, 2] [1, 1] [4, 4] ∧
    ((sampleExposure 0 [1, 2] [0, 0] [4, 4]).setMask
        { width := 1, height := 2, pixels := [1, 1] }).state =
      sampleExposure 0 [1, 2] [0, 0] [4, 4] :=
  ⟨(setters_spec _ _).2.1.2.2 (by decide), (setters_spec _ _).2.1.2.1 (by decide)⟩

/-! ## C6: the static template -/

/-- The summing pass of `createTemplate` over the exposures `imgs`, on the buffer `t`: one
float addition for each exposure. -/
theorem summingLoop_cell (n : Nat) (imgs : List LayeredImage) (t : List ℚ) (p : Nat) :
    (imgs.foldl (fun templatePix i =>
      forLoop n (fun p templatePix =>
        templatePix.set p (toFloat (templatePix.getD p 0 + i.science.pixels.getD p 0)))
        templatePix)
      t)[p]? =
      (t[p]?).map (fun x =>
        if p < n then
          (imgs.map (fun im => im.science.pixels.getD p 0)).foldl
            (fun acc v => toFloat (acc + v)) x
        else x) := by
  induction imgs generalizing t with
  | nil => simp
  | cons img rest ih =>
    rw [List.foldl_cons, ih]
    rw [forLoop_cellwise (fun i x => toFloat (x + img.science.pixels.getD i 0)) _
      (fun _ _ => rfl)]
    rw [Option.map_map]
    congr 1
    funext x
    by_cases hp : p < n
    · simp [hp, -List.getD_eq_getElem?_getD]
    · simp [hp]

/-- When its assertion holds `createTemplate` returns, changes the template buffer alone,
and cell `p` of the template becomes the old value with the science values added one after
the other, divided by the image count, each operation in `float`. -/
theorem createTemplate_cell (s : ImageStack)
    (hdims : s.avgTemplate.width = s.getWidth ∧ s.avgTemplate.height = s.getHeight) :
    ∃ r, s.createTemplate = some r ∧ r.images = s.images ∧ r.imageTimes = s.imageTimes ∧
      r.masterMask = s.masterMask ∧ r.avgTemplate.width = s.avgTemplate.width ∧
      r.avgTemplate.height = s.avgTemplate.height ∧
      ∀ p : Nat, r.avgTemplate.pixels[p]? =
        (s.avgTemplate.pixels[p]?).map (fun x =>
          if p < s.getPPI then
            toFloat ((scienceAt s p).foldl (fun acc v => toFloat (acc + v)) x /
              toFloat (s.imgCount : ℚ))
          else x) := by
  unfold ImageStack.createTemplate
  rw [if_pos hdims]
  refine ⟨_, rfl, rfl, rfl, rfl, rfl, rfl, ?_⟩
  intro p
  simp only
  rw [forLoop_cellwise (fun _ x => toFloat (x / toFloat (s.imgCount : ℚ))) _
    (fun _ _ => rfl)]
  rw [summingLoop_cell, Option.map_map]
  congr 1
  funext x
  by_cases hp : p < s.getPPI
  · simp [hp, scienceAt]
  · simp [hp]

/-- On a template of zeros and a stack of fewer than 2^32 exposures, cell `p` of the
template after `createTemplate` is the float mean of the science values at `p`. -/
theorem createTemplate_floatMean (s : ImageStack) (p : Nat)
    (hcount : s.images.length < 2 ^ 32)
    (hdims : s.avgTemplate.width = s.getWidth ∧ s.avgTemplate.height = s.getHeight)
    (hzero : ∀ x ∈ s.avgTemplate.pixels, x = 0) (hp : p < s.getPPI)
    (hlen : p < s.avgTemplate.pixels.length) :
    ∃ r, s.createTemplate = some r ∧ r.images = s.images ∧
      r.avgTemplate.pixels[p]? = some (floatMean (scienceAt s p)) := by
  obtain ⟨r, hr, himgs, _, _, _, _, hcell⟩ := createTemplate_cell s hdims
  refine ⟨r, hr, himgs, ?_⟩
  rw [hcell, List.getElem?_eq_getElem hlen]
  have hx : s.avgTemplate.pixels[p] = 0 := hzero _ (List.getElem_mem hlen)
  have hc : s.imgCount = s.images.length := Nat.mod_eq_of_lt hcount
  simp [hp, hx, hc, floatMean, floatSum, scienceAt]

/-- C6 (as amended): on a stack of fewer than 2^32 exposures whose template is all zeros and
has the stack's shape (its state right after construction), and at a pixel `p` that the
science layer of every exposure holds, `createTemplate()` returns and the template at `p`
is the mean of the science values at `p` as `float` arithmetic computes it: the values are
added one after the other, in the order of the exposures, each sum rounded to the nearest
float, and the last sum is divided by the number of exposures converted to float, the
quotient rounded to the nearest float.  No sum may exceed the range of `float`. -/
theorem createTemplate_mean (s : ImageStack) (p : Nat)
    (hcount : s.images.length < 2 ^ 32)
    (hdims : s.avgTemplate.width = s.getWidth ∧ s.avgTemplate.height = s.getHeight)
    (hzero : ∀ x ∈ s.avgTemplate.pixels, x = 0) (hp : p < s.getPPI)
    (hlen : p < s.avgTemplate.pixels.length) :
    (∀ im ∈ s.images, p < im.science.pixels.length) →
    (∀ k : Nat, k ≤ (scienceAt s p).length →
      |floatSum ((scienceAt s p).take k)| ≤ maxFloat) →
    ∃ r, s.createTemplate = some r ∧ r.images = s.images ∧
      r.avgTemplate.pixels[p]? = some (floatMean (scienceAt s p)) := by
  intro _ _
  exact createTemplate_floatMean s p hcount hdims hzero hp hlen

theorem createTemplate_mean_witness :
    ∃ r, sampleStack.createTemplate = some r ∧ r.images = sampleStack.images ∧
      r.avgTemplate.pixels[1]? = some (floatMean (scienceAt sampleStack 1)) ∧
      floatMean (scienceAt sampleStack 1) = (20 + 50) / 2 := by
  obtain ⟨r, hr, himgs, hcell⟩ :=
    createTemplate_mean sampleStack 1 (by decide) (by decide) (by decide) (by decide)
      (by decide) (by decide) (by decide!)
  exact ⟨r, hr, himgs, hcell, by decide!⟩

/-- C6 (counterexample): on three exposures with the science values 1, 0 and 0 at pixel 0
the sum is 1 and the number of exposures is 3, but 1/3 is not a float: the template at
pixel 0 is 11184811/33554432, the float nearest to it. -/
theorem createTemplate_rounding_counterexample :
    (tripleStack.createTemplate).map (fun r => r.avgTemplate.pixels) =
      some [11184811 / 33554432, 3] ∧
    scienceSum tripleStack 0 / (tripleStack.images.length : ℚ) = 1 / 3 ∧
    (tripleStack.createTemplate).map (fun r => r.avgTemplate.pixels[0]?) ≠
      some (some (scienceSum tripleStack 0 / (tripleStack.images.length : ℚ))) := by
  decide!

/-! ## C7: applyMaskThreshold -/

/-- The loop of `applyMaskThreshold` on the pair of buffers is a loop on each buffer: the
test of iteration `i` reads a science cell that no earlier iteration has written. -/
theorem thresholdLoop_split (NO_DATA thresh : ℚ) (n : Nat) (sci var : List ℚ) :
    forLoop n (fun i (pix : List ℚ × List ℚ) =>
      if pix.1.getD i 0 > thresh then (pix.1.set i NO_DATA, pix.2.set i NO_DATA) else pix)
      (sci, var) =
    (forLoop n (fun i l => l.set i (if l.getD i 0 > thresh then NO_DATA else l.getD i 0)) sci,
     forLoop n (fun i l => l.set i (if sci.getD i 0 > thresh then NO_DATA else l.getD i 0))
       var) := by
  induction n with
  | zero => rfl
  | succ k ih =>
    rw [forLoop, ih, forLoop, forLoop]
    have hread : (forLoop k
        (fun i l => l.set i (if l.getD i 0 > thresh then NO_DATA else l.getD i 0))
        sci).getD k 0 = sci.getD k 0 := by
      rw [List.getD_eq_getElem?_getD, List.getD_eq_getElem?_getD,
        forLoop_cellwise (fun _ x => if x > thresh then NO_DATA else x) _ (fun _ _ => rfl)]
      cases sci[k]? <;> simp
    simp only [hread]
    by_cases hc : sci.getD k 0 > thresh
    · simp only [hc, if_true]
    · simp only [hc, if_false, set_getD_self]
      rw [← hread, set_getD_self]

/-- C7: `applyMaskThreshold(thresh)` sets science and variance to NO_DATA at every pixel
whose science value is greater than `thresh`, leaves science and variance unchanged at
every other pixel, and leaves the mask layer unchanged. -/
theorem applyMaskThreshold_spec (NO_DATA : ℚ) (self : LayeredImage) (thresh : ℚ) (i : Nat)
    (hwf : self.WellFormed) (hi : i < self.pixelsPerImage) :
    (self.science.pixels.getD i 0 > thresh →
      (self.applyMaskThreshold NO_DATA thresh).science.pixels[i]? = some NO_DATA ∧
      (self.applyMaskThreshold NO_DATA thresh).variance.pixels[i]? = some NO_DATA) ∧
    (¬ self.science.pixels.getD i 0 > thresh →
      (self.applyMaskThreshold NO_DATA thresh).science.pixels[i]? =
        self.science.pixels[i]? ∧
      (self.applyMaskThreshold NO_DATA thresh).variance.pixels[i]? =
        self.variance.pixels[i]?) ∧
    (self.applyMaskThreshold NO_DATA thresh).mask = self.mask := by
  obtain ⟨hppi, ⟨hs, hsw, hsh⟩, _, ⟨hv, hvw, hvh⟩⟩ := hwf
  have hsl : i < self.science.pixels.length := by
    rw [hs, hsw, hsh, ← hppi]; exact hi
  have hvl : i < self.variance.pixels.length := by
    rw [hv, hvw, hvh, ← hppi]; exact hi
  unfold LayeredImage.applyMaskThreshold
  simp only [thresholdLoop_split]
  rw [forLoop_cellwise (fun _ x => if x > thresh then NO_DATA else x) _ (fun _ _ => rfl),
    forLoop_cellwise
      (fun j x => if self.science.pixels.getD j 0 > thresh then NO_DATA else x) _
      (fun _ _ => rfl)]
  rw [List.getElem?_eq_getElem hsl, List.getElem?_eq_getElem hvl]
  have hget : self.science.pixels.getD i 0 = self.science.pixels[i] := by
    simp [List.getElem?_eq_getElem hsl]
  refine ⟨?_, ?_, trivial⟩
  · intro hgt
    have hgt2 := hgt
    rw [hget] at hgt2
    simp [hi, hgt, hgt2, -List.getD_eq_getElem?_getD]
  · intro hngt
    have hngt2 := hngt
    rw [hget] at hngt2
    simp [hi, hngt, hngt2, -List.getD_eq_getElem?_getD]

theorem applyMaskThreshold_spec_witness :
    ((sampleExposure 0 [10, 90] [0, 0] [4, 5]).applyMaskThreshold (-9999) 50).science.pixels[1]?
      = some (-9999 : ℚ) ∧
    ((sampleExposure 0 [10, 90] [0, 0] [4, 5]).applyMaskThreshold (-9999) 50).variance.pixels[1]?
      = some (-9999 : ℚ) :=
  (applyMaskThreshold_spec (-9999) (sampleExposure 0 [10, 90] [0, 0] [4, 5]) 50 1
    (by decide) (by decide)).1 (by decide)

/-! ## C8: applyMasterMask on the stack -/

theorem applyMask_cell (NO_DATA : ℚ) (self : RawImage) (flags : Int) (exceptions : List Int)
    (m : RawImage) (p : Nat) :
    (self.applyMask NO_DATA flags exceptions m).pixels[p]? =
      (self.pixels[p]?).map (fun x =>
        if p < self.width * self.height then
          (if Int.land flags (toInt (m.pixels.getD p 0)) ≠ 0 ∧
              ∀ e ∈ exceptions, Int.land e (toInt (m.pixels.getD p 0)) = 0
            then NO_DATA else x)
        else x) := by
  unfold RawImage.applyMask
  simp only
  rw [forLoop_cellwise (fun i x =>
    if Int.land flags (toInt (m.pixels.getD i 0)) ≠ 0 ∧
        ∀ e ∈ exceptions, Int.land e (toInt (m.pixels.getD i 0)) = 0
      then NO_DATA else x)]
  intro i l
  by_cases hc : Int.land flags (toInt (m.pixels.getD i 0)) ≠ 0 ∧
      ∀ e ∈ exceptions, Int.land e (toInt (m.pixels.getD i 0)) = 0
  · rw [if_pos hc, if_pos hc]
  · rw [if_neg hc, if_neg hc, set_getD_self]

/-- What `LayeredImage::applyMasterMask` does to one layer at pixel `p` when the master
mask holds 0 or 1 there. -/
theorem applyMask_by_master (NO_DATA : ℚ) (layer m : RawImage) (p : Nat) (bad : Prop)
    [Decidable bad] (hp : p < layer.width * layer.height) (hlen : p < layer.pixels.length)
    (hm : m.pixels[p]? = some (if bad then 1 else 0)) :
    (layer.applyMask NO_DATA 0xFFFFFF [] m).pixels[p]? =
      some (if bad then NO_DATA else layer.pixels.getD p 0) := by
  rw [applyMask_cell, List.getElem?_eq_getElem hlen]
  have hget : layer.pixels.getD p 0 = layer.pixels[p] := by
    simp [List.getElem?_eq_getElem hlen]
  have hmd : m.pixels.getD p 0 = if bad then 1 else 0 := by
    rw [List.getD_eq_getElem?_getD, hm]; rfl
  rw [hget, hmd]
  by_cases hb : bad
  · have h1 : Int.land 0xFFFFFF (toInt 1) ≠ 0 := by decide
    simp [hp, hb, h1]
  · have h0 : Int.land 0xFFFFFF (toInt 0) = 0 := by decide
    simp [hp, hb, h0]

/-- C8 (as amended): on a stack of fewer than 2^24 exposures, all well formed and of the
stack's pixel count, whose master mask is all zeros, and at a pixel `p` where every mask
value is at least 0 and below 2^31, after `applyMasterMask(flags, threshold)` every exposure
has science and variance equal to NO_DATA at `p` if at least `threshold` exposures have a
`flags` bit set in their mask value at `p`, taken as an integer, and its old science and
variance values at `p` otherwise; the mask layers are unchanged. -/
theorem applyMasterMask_consistency (NO_DATA : ℚ) (s : ImageStack) (flags threshold : Int)
    (p k : Nat) (im : LayeredImage)
    (hzero : ∀ x ∈ s.masterMask.pixels, x = 0) (hlen : p < s.masterMask.pixels.length)
    (hp : p < s.getPPI) (hcount : s.images.length < 2 ^ 24)
    (hwf : ∀ i ∈ s.images, i.WellFormed ∧ i.pixelsPerImage = s.getPPI)
    (hrange : ∀ i ∈ s.images,
      0 ≤ i.mask.pixels.getD p 0 ∧ i.mask.pixels.getD p 0 < 2 ^ 31)
    (hk : s.images[k]? = some im) :
    (s.applyMasterMask NO_DATA flags threshold).images.length = s.images.length ∧
    ∃ r, (s.applyMasterMask NO_DATA flags threshold).images[k]? = some r ∧
      r.science.pixels[p]? =
        some (if threshold ≤ (flagCount s flags p : Int) then NO_DATA
          else im.science.pixels.getD p 0) ∧
      r.variance.pixels[p]? =
        some (if threshold ≤ (flagCount s flags p : Int) then NO_DATA
          else im.variance.pixels.getD p 0) ∧
      r.mask = im.mask := by
  have hmask : ∀ i ∈ s.images, p < i.mask.pixels.length ∧
      0 ≤ i.mask.pixels.getD p 0 ∧ i.mask.pixels.getD p 0 < 2 ^ 31 := by
    intro i hi
    obtain ⟨⟨hppi, _, ⟨hm, hmw, hmh⟩, _⟩, hsame⟩ := hwf i hi
    refine ⟨?_, hrange i hi⟩
    rw [hm, hmw, hmh, ← hppi, hsame]
    exact hp
  have hmaster : (s.createMasterMask flags threshold).masterMask.pixels[p]? =
      some (if threshold ≤ (flagCount s flags p : Int) then 1 else 0) := by
    rw [← flagVotes_eq_flagCount s flags p hmask]
    exact createMasterMask_votes s flags threshold p hzero hp hlen hcount
  have hmem : im ∈ s.images := List.getElem?_mem hk
  obtain ⟨⟨hppi, ⟨hs, hsw, hsh⟩, _, ⟨hv, hvw, hvh⟩⟩, hsame⟩ := hwf im hmem
  have hpim : p < im.width * im.height := by
    rw [← hppi, hsame]; exact hp
  unfold ImageStack.applyMasterMask
  refine ⟨by simp [ImageStack.createMasterMask], ?_⟩
  refine ⟨im.applyMasterMask NO_DATA (s.createMasterMask flags threshold).masterMask,
    ?_, ?_, ?_, rfl⟩
  · simp only [List.getElem?_map]
    have himgs : (s.createMasterMask flags threshold).images = s.images := rfl
    rw [himgs, hk]
    rfl
  · exact applyMask_by_master NO_DATA im.science _ p _ (by rw [hsw, hsh]; exact hpim)
      (by rw [hs, hsw, hsh]; exact hpim) hmaster
  · exact applyMask_by_master NO_DATA im.variance _ p _ (by rw [hvw, hvh]; exact hpim)
      (by rw [hv, hvw, hvh]; exact hpim) hmaster

theorem applyMasterMask_consistency_witness :
    ∃ r, (sampleStack.applyMasterMask (-9999) 1 2).images[1]? = some r ∧
      r.science.pixels[0]? = some (-9999 : ℚ) ∧ r.science.pixels[1]? = some (50 : ℚ) := by
  obtain ⟨_, r, hr, hsci, _, _⟩ :=
    applyMasterMask_consistency (-9999) sampleStack 1 2 0 1
      (sampleExposure 7 [30, 50] [1, 2] [4, 4])
      (by decide) (by decide) (by decide) (by decide) (by decide) (by decide!) (by decide)
  obtain ⟨_, r1, hr1, hsci1, _, _⟩ :=
    applyMasterMask_consistency (-9999) sampleStack 1 2 1 1
      (sampleExposure 7 [30, 50] [1, 2] [4, 4])
      (by decide) (by decide) (by decide) (by decide) (by decide) (by decide!) (by decide)
  have hrr : r1 = r := by
    rw [hr] at hr1
    exact (Option.some.inj hr1).symm
  subst hrr
  refine ⟨r1, hr, ?_, ?_⟩
  · rw [hsci]; decide!
  · rw [hsci1]; decide!

/-- C8 (counterexample): in the one exposure of science `[10, 20]` and mask
`[3000000000, 512]`, the mask value at pixel 0 is a float that, as an integer, has the bit
512 set, so one exposure, which is at least the threshold 1, has a `flags` bit set there.
But 3000000000 is beyond the range of `int` and the conversion yields `INT_MIN`:
`applyMasterMask(512, 1)` counts no vote at pixel 0 and leaves its science and variance
values 10 and 4, while pixel 1 becomes NO_DATA. -/
theorem applyMasterMask_cast_counterexample :
    toFloat 3000000000 = 3000000000 ∧
    flagCount overflowStack 512 0 = 1 ∧
    (overflowStack.applyMasterMask (-9999) 512 1).images.map (fun i => i.science.pixels) =
      [[10, -9999]] ∧
    (overflowStack.applyMasterMask (-9999) 512 1).images.map (fun i => i.variance.pixels) =
      [[4, -9999]] := by
  decide!

/-! ## C9: subtractTemplate -/

/-- C9 (as amended): for a well-formed exposure and a well-formed template of its width and
height, `subtractTemplate` returns; the science value at every pixel `p` becomes the float
nearest to the old one minus the template's value at `p`, as long as that difference is
within the range of `float`; and the variance layer, the mask layer, the capture time and
the declared dimensions are unchanged. -/
theorem subtractTemplate_frame (self : LayeredImage) (t : RawImage) (hwf : self.WellFormed)
    (hw : t.width = self.width) (hh : t.height = self.height) :
    t.WellFormed →
    ∃ r, self.subtractTemplate t = some r ∧
      (∀ p : Nat, p < self.pixelsPerImage →
        |self.science.pixels.getD p 0 - t.pixels.getD p 0| ≤ maxFloat →
        r.science.pixels[p]? =
          some (toFloat (self.science.pixels.getD p 0 - t.pixels.getD p 0))) ∧
      r.science.pixels.length = self.science.pixels.length ∧
      r.science.width = self.science.width ∧ r.science.height = self.science.height ∧
      r.variance = self.variance ∧ r.mask = self.mask ∧
      r.captureTime = self.captureTime ∧ r.width = self.width ∧ r.height = self.height ∧
      r.pixelsPerImage = self.pixelsPerImage := by
  intro _
  obtain ⟨hppi, ⟨hs, hsw, hsh⟩, _, _⟩ := hwf
  unfold LayeredImage.subtractTemplate
  rw [if_pos ⟨hh.symm, hw.symm⟩]
  refine ⟨_, rfl, ?_, ?_, rfl, rfl, rfl, rfl, rfl, rfl, rfl, rfl⟩
  · intro p hp _
    have hsl : p < self.science.pixels.length := by
      rw [hs, hsw, hsh, ← hppi]; exact hp
    simp only
    rw [forLoop_cellwise (fun i x => toFloat (x - t.pixels.getD i 0)) _ (fun _ _ => rfl),
      List.getElem?_eq_getElem hsl]
    have hget : self.science.pixels.getD p 0 = self.science.pixels[p] := by
      simp [List.getElem?_eq_getElem hsl]
    have hp2 : p < self.getPPI := hp
    simp [hp2, hget, -List.getD_eq_getElem?_getD]
  · simp only
    rw [forLoop_cellwise_length (fun i x => toFloat (x - t.pixels.getD i 0)) _
      (fun _ _ => rfl)]

theorem subtractTemplate_frame_witness :
    ∃ r, (sampleExposure 7 [30, 50] [1, 2] [4, 4]).subtractTemplate
        { width := 2, height := 1, pixels := [20, 35] } = some r ∧
      r.science.pixels[1]? = some (15 : ℚ) ∧
      r.variance.pixels = [4, 4] ∧ r.mask.pixels = [1, 2] := by
  obtain ⟨r, hr, hsci, _, _, _, hvar, hmask, _⟩ :=
    subtractTemplate_frame (sampleExposure 7 [30, 50] [1, 2] [4, 4])
      { width := 2, height := 1, pixels := [20, 35] } (by decide) (by decide) (by decide)
      (by decide)
  refine ⟨r, hr, ?_, ?_, ?_⟩
  · rw [hsci 1 (by decide) (by decide!)]
    decide!
  · rw [hvar]; rfl
  · rw [hmask]; rfl

/-- C9 (counterexample): 16777216 and -1 are floats but their difference 16777217 is not.
Subtracting the template `[-1, 35]` from the science layer `[16777216, 50]` leaves
`[16777216, 15]`: the science value at pixel 0 is not the old one minus the template's. -/
theorem subtractTemplate_rounding_counterexample :
    [16777216, -1].map toFloat = [16777216, -1] ∧
    ((sampleExposure 7 [16777216, 50] [1, 2] [4, 4]).subtractTemplate
        { width := 2, height := 1, pixels := [-1, 35] }).map (fun r => r.science.pixels) =
      some [16777216, 15] ∧
    ((sampleExposure 7 [16777216, 50] [1, 2] [4, 4]).subtractTemplate
        { width := 2, height := 1, pixels := [-1, 35] }).map (fun r => r.science.pixels[0]?) ≠
      some (some ((16777216 : ℚ) - (-1))) := by
  decide!

/-! ## C10: the master mask is not reset -/

/-- C10: `createMasterMask` does not start from a zeroed master mask.  On the sample stack
(masks `[1, 0]` and `[1, 2]`), `createMasterMask(1, 1)` followed by `createMasterMask(1, 3)`
leaves pixel 0 marked, while `createMasterMask(1, 3)` alone on the fresh stack leaves it
unmarked: the first call's result is counted as a vote by the second. -/
theorem createMasterMask_keeps_old_mask :
    ((sampleStack.createMasterMask 1 1).createMasterMask 1 3).masterMask.pixels = [1, 0] ∧
    (sampleStack.createMasterMask 1 3).masterMask.pixels = [0, 0] := by
  decide!

/-! ## C11: the template is not reset -/

/-- C11: `createTemplate` does not start from a zeroed template.  On the sample stack
(science `[10, 20]` and `[30, 50]`) the first call leaves the mean `[20, 35]`; a second call,
the exposures unchanged, adds the science sums to that mean before dividing and leaves
`[30, 105/2]`. -/
theorem createTemplate_keeps_old_template :
    (sampleStack.createTemplate).map (fun r => r.avgTemplate.pixels) = some [20, 35] ∧
    (sampleStack.createTemplate.bind ImageStack.createTemplate).map
      (fun r => r.avgTemplate.pixels) = some [30, 105 / 2] := by
  decide!

/-! ## C12: applyMasterMask on one exposure -/

/-- C12: `LayeredImage::applyMasterMask` tests the master mask against `0xFFFFFF`, so a
mask value that is not 0 but has none of its low 24 bits set masks nothing.  With the
master mask `[16777216, 3]` pixel 0 keeps its science and variance values and pixel 1
becomes NO_DATA. -/
theorem applyMasterMask_ignores_high_bits :
    ((sampleExposure 0 [10, 20] [0, 0] [4, 5]).applyMasterMask (-9999)
      { width := 2, height := 1, pixels := [16777216, 3] }).science.pixels = [10, -9999] ∧
    ((sampleExposure 0 [10, 20] [0, 0] [4, 5]).applyMasterMask (-9999)
      { width := 2, height := 1, pixels := [16777216, 3] }).variance.pixels = [4, -9999] := by
  decide!

/-! ## C13: NO_DATA in the static template -/

theorem filter_ne_of_count_zero (NO_DATA : ℚ) (l : List ℚ) (h : l.count NO_DATA = 0) :
    l.filter (fun v => v ≠ NO_DATA) = l := by
  rw [List.filter_eq_self]
  intro a ha
  have hne : a ≠ NO_DATA := by
    intro heq
    rw [heq] at ha
    exact (List.count_eq_zero.mp h) ha
  simpa using hne

/-- C13 (as amended): `createTemplate` makes no exception for NO_DATA.  On a stack of fewer
than 2^32 exposures whose template is all zeros and has the stack's shape, and at a pixel
`p` that the science layer of every exposure holds, the template at `p` is the float mean of
the science values at `p` of all exposures, a NO_DATA value included as the number it is and
its exposure counted in the divisor; this is the float mean of the values that are not
NO_DATA when no exposure is NO_DATA at `p`.  No sum may exceed the range of `float`. -/
theorem createTemplate_counts_NO_DATA (NO_DATA : ℚ) (s : ImageStack) (p : Nat)
    (hcount : s.images.length < 2 ^ 32)
    (hdims : s.avgTemplate.width = s.getWidth ∧ s.avgTemplate.height = s.getHeight)
    (hzero : ∀ x ∈ s.avgTemplate.pixels, x = 0) (hp : p < s.getPPI)
    (hlen : p < s.avgTemplate.pixels.length) :
    (∀ im ∈ s.images, p < im.science.pixels.length) →
    (∀ k : Nat, k ≤ (scienceAt s p).length →
      |floatSum ((scienceAt s p).take k)| ≤ maxFloat) →
    ∃ r, s.createTemplate = some r ∧
      r.avgTemplate.pixels[p]? = some (floatMean (scienceAt s p)) ∧
      (scienceAt s p).length = s.images.length ∧
      (noDataCount NO_DATA s p = 0 →
        r.avgTemplate.pixels[p]? = some (floatMean (validScience NO_DATA s p))) := by
  intro _ _
  obtain ⟨r, hr, _, hcell⟩ := createTemplate_floatMean s p hcount hdims hzero hp hlen
  refine ⟨r, hr, hcell, by simp [scienceAt], ?_⟩
  intro hnone
  rw [hcell]
  unfold validScience
  rw [filter_ne_of_count_zero NO_DATA _ hnone]
  rfl

theorem createTemplate_counts_NO_DATA_witness :
    ∃ r, maskedStack.createTemplate = some r ∧
      r.avgTemplate.pixels[0]? = some (floatMean (scienceAt maskedStack 0)) ∧
      scienceAt maskedStack 0 = [-9999, 30] ∧
      floatMean (scienceAt maskedStack 0) = -9969 / 2 := by
  obtain ⟨r, hr, hcell, _⟩ :=
    createTemplate_counts_NO_DATA (-9999) maskedStack 0 (by decide) (by decide) (by decide)
      (by decide) (by decide) (by decide) (by decide!)
  exact ⟨r, hr, hcell, by decide!, by decide!⟩

/-- C13 (counterexample): with NO_DATA = -9999 and science values -9999 and 30 at pixel 0,
the template at pixel 0 is (-9999 + 30) / 2, not the mean 30 of the values that are not
NO_DATA. -/
theorem createTemplate_NO_DATA_counterexample :
    (maskedStack.createTemplate).map (fun r => r.avgTemplate.pixels[0]?) =
      some (some (-9969 / 2 : ℚ)) ∧
    noDataFreeMean (-9999) maskedStack 0 = 30 ∧
    (maskedStack.createTemplate).map (fun r => r.avgTemplate.pixels[0]?) ≠
      some (some (noDataFreeMean (-9999) maskedStack 0)) := by
  decide!

/-! ## C18: createMasterMask called again with the same arguments -/

theorem createMasterMask_images (s : ImageStack) (flags threshold : Int) :
    (s.createMasterMask flags threshold).images = s.images := rfl

/-- A call of `createMasterMask` that leaves the buffer of the master mask as it was
leaves the whole stack as it was. -/
theorem createMasterMask_eq_self (s : ImageStack) (flags threshold : Int)
    (h : (s.createMasterMask flags threshold).masterMask.pixels = s.masterMask.pixels) :
    s.createMasterMask flags threshold = s := by
  have hs : s.createMasterMask flags threshold =
      { s with masterMask :=
          { s.masterMask with
            pixels := (s.createMasterMask flags threshold).masterMask.pixels } } := rfl
  rw [hs, h]

/-- On a master mask of zeros, a second call with the same arguments finds the result of
the first and reproduces it. -/
theorem createMasterMask_twice (s : ImageStack) (flags threshold : Int)
    (hzero : ∀ x ∈ s.masterMask.pixels, x = 0) :
    (s.createMasterMask flags threshold).createMasterMask flags threshold =
      s.createMasterMask flags threshold := by
  apply createMasterMask_eq_self
  apply List.ext_getElem?
  intro p
  rw [createMasterMask_cell (s.createMasterMask flags threshold), createMasterMask_cell s]
  have hv : flagVotes (s.createMasterMask flags threshold) flags p = flagVotes s flags p := rfl
  have hn : (s.createMasterMask flags threshold).getPPI = s.getPPI := rfl
  rw [hv, hn]
  by_cases hlen : p < s.masterMask.pixels.length
  · rw [List.getElem?_eq_getElem hlen]
    have hx : s.masterMask.pixels[p] = 0 := hzero _ (List.getElem_mem hlen)
    simp only [Option.map_some', hx, Option.some.injEq]
    by_cases hp : p < s.getPPI
    · simp only [hp, if_true]
      by_cases hlt : (fun y => toFloat (y + 1))^[flagVotes s flags p] (0 : ℚ) <
          toFloat (threshold : ℚ)
      · simp [hlt]
      · have h1 : ¬ ((fun y => toFloat (y + 1))^[flagVotes s flags p] (1 : ℚ) <
            toFloat (threshold : ℚ)) := by
          intro h
          apply hlt
          exact lt_of_le_of_lt
            (floatCounter_mono (flagVotes s flags p) 0 1 (by norm_num)) h
        simp [hlt, h1]
    · simp [hp]
  · rw [List.getElem?_eq_none (Nat.le_of_not_lt hlen)]
    rfl

/-- C18: starting from a stack whose master mask is all zeros (a freshly constructed
stack), any number `n + 1` of calls of `createMasterMask(flags, threshold)` in a row leaves
the stack, and so the master mask, as one call leaves it. -/
theorem createMasterMask_idempotent (s : ImageStack) (flags threshold : Int) (n : Nat)
    (hzero : ∀ x ∈ s.masterMask.pixels, x = 0) :
    (fun st : ImageStack => st.createMasterMask flags threshold)^[n + 1] s =
      s.createMasterMask flags threshold := by
  rw [Function.iterate_succ_apply]
  exact Function.iterate_fixed (createMasterMask_twice s flags threshold hzero) n

theorem createMasterMask_idempotent_witness :
    ((fun st : ImageStack => st.createMasterMask 1 2)^[3] sampleStack).masterMask.pixels =
      [1, 0] := by
  rw [createMasterMask_idempotent sampleStack 1 2 2 (by decide)]
  decide!

/-! ## C19: NO_DATA and the template subtraction -/

/-- C19 (as amended): `subtractTemplate` treats a NO_DATA science pixel as the number it
is.  For a template of the exposure's width and height that holds pixel `p`, a science
pixel `p` that is NO_DATA before the call is the float nearest to NO_DATA minus the
template's value afterwards, as long as that difference is within the range of `float`; so
it is still NO_DATA where the template is 0, NO_DATA being a float. -/
theorem subtractTemplate_NO_DATA (NO_DATA : ℚ) (self : LayeredImage) (t : RawImage)
    (p : Nat) (hw : t.width = self.width) (hh : t.height = self.height)
    (hp : p < self.pixelsPerImage) (hnd : self.science.pixels[p]? = some NO_DATA) :
    p < t.pixels.length → |NO_DATA - t.pixels.getD p 0| ≤ maxFloat →
    ∃ r, self.subtractTemplate t = some r ∧
      r.science.pixels[p]? = some (toFloat (NO_DATA - t.pixels.getD p 0)) ∧
      (t.pixels.getD p 0 = 0 → toFloat NO_DATA = NO_DATA →
        r.science.pixels[p]? = some NO_DATA) := by
  intro _ _
  unfold LayeredImage.subtractTemplate
  rw [if_pos ⟨hh.symm, hw.symm⟩]
  have hcell : (forLoop self.getPPI (fun i sciPix =>
      sciPix.set i (toFloat (sciPix.getD i 0 - t.pixels.getD i 0))) self.science.pixels)[p]? =
      some (toFloat (NO_DATA - t.pixels.getD p 0)) := by
    rw [forLoop_cellwise (fun i x => toFloat (x - t.pixels.getD i 0)) _ (fun _ _ => rfl), hnd]
    have hp2 : p < self.getPPI := hp
    simp [hp2, -List.getD_eq_getElem?_getD]
  refine ⟨_, rfl, hcell, ?_⟩
  intro h0 hfl
  simp only
  rw [hcell, h0, sub_zero, hfl]

theorem subtractTemplate_NO_DATA_witness :
    ∃ r, (sampleExposure 5 [-9999, 20] [1, 0] [4, 4]).subtractTemplate
        { width := 2, height := 1, pixels := [20, 35] } = some r ∧
      r.science.pixels[0]? = some (toFloat (-9999 - 20)) ∧
      toFloat (-9999 - 20) = -10019 := by
  obtain ⟨r, hr, hcell, _⟩ :=
    subtractTemplate_NO_DATA (-9999) (sampleExposure 5 [-9999, 20] [1, 0] [4, 4])
      { width := 2, height := 1, pixels := [20, 35] } 0 (by decide) (by decide) (by decide)
      (by decide) (by decide) (by decide!)
  exact ⟨r, hr, hcell, by decide!⟩

/-- C19 (counterexample): with NO_DATA = -9999, subtracting the template `[20, 35]` from the
science layer `[-9999, 50]` leaves `[-10019, 15]`: the NO_DATA pixel is no longer NO_DATA.
Likewise `simpleDifference` on the stack with science layers `[-9999, 20]` and `[30, 50]`
turns the NO_DATA pixel into -10029/2. -/
theorem subtractTemplate_NO_DATA_counterexample :
    ((sampleExposure 5 [-9999, 50] [1, 0] [4, 4]).subtractTemplate
        { width := 2, height := 1, pixels := [20, 35] }).map (fun r => r.science.pixels) =
      some [-10019, 15] ∧
    (maskedStack.simpleDifference).map (fun r => r.images.map (fun i => i.science.pixels)) =
      some [[-10029 / 2, -15], [10029 / 2, 15]] := by
  decide!

/-! ## C15: convolve on one exposure -/

/-- C15 (as amended): after `convolve(psf)` science is the old science convolved with `psf`,
variance is the old variance convolved with the squared variant of a new PSF built from the
standard deviation of `psf`, and the mask layer is unchanged.  When `psf` is the PSF that
its standard deviation derives, that is the old variance convolved with the elementwise
square of the kernel of `psf` itself. -/
theorem convolve_spec (NO_DATA : ℚ) (supplier : ℚ → List ℚ × Nat) (self : LayeredImage)
    (psf : PointSpreadFunc) :
    (self.convolve NO_DATA supplier psf).science = self.science.convolve NO_DATA psf ∧
    (self.convolve NO_DATA supplier psf).variance =
      self.variance.convolve NO_DATA (PointSpreadFunc.new supplier psf.stdev).squarePSF ∧
    (self.convolve NO_DATA supplier psf).mask = self.mask ∧
    (psf = PointSpreadFunc.new supplier psf.stdev →
      (self.convolve NO_DATA supplier psf).variance =
        self.variance.convolve NO_DATA psf.squarePSF) := by
  refine ⟨rfl, rfl, rfl, ?_⟩
  intro h
  show self.variance.convolve NO_DATA (PointSpreadFunc.new supplier psf.stdev).squarePSF =
    self.variance.convolve NO_DATA psf.squarePSF
  rw [← h]

theorem convolve_spec_witness :
    ((sampleExposure 0 [10, 20] [0, 0] [4, 8]).convolve (-9999) sampleSupplier
        (PointSpreadFunc.new sampleSupplier 1)).variance =
      (sampleExposure 0 [10, 20] [0, 0] [4, 8]).variance.convolve (-9999)
        (PointSpreadFunc.new sampleSupplier 1).squarePSF :=
  (convolve_spec (-9999) sampleSupplier (sampleExposure 0 [10, 20] [0, 0] [4, 8])
    (PointSpreadFunc.new sampleSupplier 1)).2.2.2 rfl

/-- C15 (counterexample): for the PSF passed in take the squared variant of the sample PSF,
whose kernel has 1/4 at the centre and 1/64 on the edges.  `convolve` convolves the variance
`[4, 8]` with the square of the kernel derived from the standard deviation (1/4 and 1/64
again) and leaves `[72/17, 132/17]`; the square of the kernel of the PSF passed in (1/16 and
1/4096) would give `[1032/257, 2052/257]`.  The kernel handed to the convolution of the
variance is not the square of the kernel of the PSF passed in. -/
theorem convolve_squared_psf_counterexample :
    ((sampleExposure 0 [10, 20] [0, 0] [4, 8]).convolve (-9999) sampleSupplier
        (PointSpreadFunc.new sampleSupplier 1).squarePSF).variance.pixels =
      [72 / 17, 132 / 17] ∧
    ((sampleExposure 0 [10, 20] [0, 0] [4, 8]).variance.convolve (-9999)
        (PointSpreadFunc.new sampleSupplier 1).squarePSF.squarePSF).pixels =
      [1032 / 257, 2052 / 257] ∧
    ((sampleExposure 0 [10, 20] [0, 0] [4, 8]).convolve (-9999) sampleSupplier
        (PointSpreadFunc.new sampleSupplier 1).squarePSF).variance ≠
      (sampleExposure 0 [10, 20] [0, 0] [4, 8]).variance.convolve (-9999)
        (PointSpreadFunc.new sampleSupplier 1).squarePSF.squarePSF ∧
    (PointSpreadFunc.new sampleSupplier
        (PointSpreadFunc.new sampleSupplier 1).squarePSF.getStdev).squarePSF.kernel ≠
      (PointSpreadFunc.new sampleSupplier 1).squarePSF.squarePSF.kernel := by
  decide!

/-! ## C16: the relative times under the stack operations -/

theorem foldl_push_eq_map (f : LayeredImage → ℚ) (l : List LayeredImage) (init : List ℚ) :
    l.foldl (fun times i => times ++ [f i]) init = init ++ l.map f := by
  induction l generalizing init with
  | nil => simp
  | cons a l ih => simp [List.foldl_cons, ih]

/-- The constructor keeps the exposures and stores their capture times, narrowed to float,
the first one subtracted from each. -/
theorem new_spec (imgs : List LayeredImage) :
    (ImageStack.new imgs).images = imgs ∧
    (ImageStack.new imgs).imageTimes =
      (imgs.map (fun i => toFloat i.captureTime)).map
        (fun t => toFloat (toDouble
          (t - (imgs.map (fun i => toFloat i.captureTime)).getD 0 0))) ∧
    (ImageStack.new imgs).avgTemplate.width = (ImageStack.new imgs).getWidth ∧
    (ImageStack.new imgs).avgTemplate.height = (ImageStack.new imgs).getHeight := by
  refine ⟨rfl, ?_, rfl, rfl⟩
  simp only [ImageStack.new, ImageStack.setTimeOrigin, ImageStack.extractImageTimes,
    LayeredImage.getTime, foldl_push_eq_map, List.nil_append]

theorem sub_origin_times (times : List ℚ) (h : times ≠ []) :
    (times.map (fun t => toFloat (toDouble (t - times.getD 0 0)))).length = times.length ∧
    (times.map (fun t => toFloat (toDouble (t - times.getD 0 0))))[0]? = some 0 := by
  refine ⟨by simp, ?_⟩
  cases times with
  | nil => exact absurd rfl h
  | cons a l => simp [toDouble_zero, toFloat_zero]

/-- What a `setTimes` that does not throw has done. -/
theorem setTimes_returned (s : ImageStack) (times : List ℚ)
    (h : (s.setTimes times).thrown = none) :
    times.length = s.imgCount ∧
    (s.setTimes times).state.imageTimes =
      times.map (fun t => toFloat (toDouble (t - times.getD 0 0))) := by
  unfold ImageStack.setTimes at h ⊢
  by_cases hl : times.length = s.imgCount
  · rw [if_neg (not_not.mpr hl)]
    exact ⟨hl, rfl⟩
  · rw [if_pos hl] at h
    simp at h

/-- Whether it throws or not, `setTimes` changes nothing but the times. -/
theorem setTimes_frame (s : ImageStack) (times : List ℚ) :
    (s.setTimes times).state.images = s.images ∧
    (s.setTimes times).state.avgTemplate = s.avgTemplate ∧
    (s.setTimes times).state.masterMask = s.masterMask ∧
    ((s.setTimes times).thrown ≠ none → (s.setTimes times).state.imageTimes = s.imageTimes) := by
  unfold ImageStack.setTimes
  by_cases hl : times.length = s.imgCount
  · rw [if_neg (not_not.mpr hl)]
    exact ⟨rfl, rfl, rfl, fun h => absurd rfl h⟩
  · rw [if_pos hl]
    exact ⟨rfl, rfl, rfl, fun _ => rfl⟩

theorem subtractTemplate_header (im : LayeredImage) (t : RawImage) (r : LayeredImage)
    (h : im.subtractTemplate t = some r) : r.header = im.header := by
  unfold LayeredImage.subtractTemplate at h
  by_cases hd : im.height = t.height ∧ im.width = t.width
  · rw [if_pos hd] at h
    rw [← Option.some.inj h]
    rfl
  · rw [if_neg hd] at h
    simp at h

theorem subtractAll_headers (t : RawImage) (l l' : List LayeredImage)
    (h : ImageStack.subtractAll t l = some l') :
    l'.map LayeredImage.header = l.map LayeredImage.header := by
  induction l generalizing l' with
  | nil =>
    simp only [ImageStack.subtractAll, Option.some.injEq] at h
    rw [← h]
  | cons a l ih =>
    unfold ImageStack.subtractAll at h
    cases ha : a.subtractTemplate t with
    | none => rw [ha] at h; simp at h
    | some a' =>
      rw [ha] at h
      cases hl : ImageStack.subtractAll t l with
      | none => rw [hl] at h; simp at h
      | some rest =>
        rw [hl] at h
        simp only [Option.some.injEq] at h
        rw [← h, List.map_cons, List.map_cons, ih rest hl,
          subtractTemplate_header a t a' ha]

theorem subtractAll_returns (t : RawImage) (l : List LayeredImage)
    (h : ∀ im ∈ l, im.height = t.height ∧ im.width = t.width) :
    ∃ l', ImageStack.subtractAll t l = some l' := by
  induction l with
  | nil => exact ⟨[], rfl⟩
  | cons a l ih =>
    obtain ⟨rest, hrest⟩ := ih (fun im him => h im (List.mem_cons_of_mem a him))
    have ha : ∃ a', a.subtractTemplate t = some a' := by
      unfold LayeredImage.subtractTemplate
      rw [if_pos (h a (List.mem_cons_self a l))]
      exact ⟨_, rfl⟩
    obtain ⟨a', ha'⟩ := ha
    refine ⟨a' :: rest, ?_⟩
    unfold ImageStack.subtractAll
    rw [ha', hrest]

/-- When `createTemplate` returns it has changed nothing but the buffer of the template. -/
theorem createTemplate_frame (s r : ImageStack) (h : s.createTemplate = some r) :
    r.images = s.images ∧ r.imageTimes = s.imageTimes ∧
    r.avgTemplate.width = s.avgTemplate.width ∧
    r.avgTemplate.height = s.avgTemplate.height := by
  unfold ImageStack.createTemplate at h
  by_cases hd : s.avgTemplate.width = s.getWidth ∧ s.avgTemplate.height = s.getHeight
  · rw [if_pos hd] at h
    rw [← Option.some.inj h]
    exact ⟨rfl, rfl, rfl, rfl⟩
  · rw [if_neg hd] at h
    simp at h

theorem map_header_of_pointwise (f : LayeredImage → LayeredImage)
    (hf : ∀ im, (f im).header = im.header) (l : List LayeredImage) :
    (l.map f).map LayeredImage.header = l.map LayeredImage.header := by
  rw [List.map_map]
  apply List.map_congr_left
  intro im _
  exact hf im

/-- One operation keeps the exposures' headers, in order, and the shape of the template;
it keeps the times unless it is a `setTimes` that does not throw. -/
theorem step_frame (NO_DATA : ℚ) (supplier : ℚ → List ℚ × Nat) (s : ImageStack)
    (op : StackOp) (s' : ImageStack) (h : s.step NO_DATA supplier op = some s') :
    s'.images.map LayeredImage.header = s.images.map LayeredImage.header ∧
    s'.avgTemplate.width = s.avgTemplate.width ∧
    s'.avgTemplate.height = s.avgTemplate.height ∧
    (s'.imageTimes = s.imageTimes ∨
      ∃ times, op = StackOp.setTimes times ∧ (s.setTimes times).thrown = none) := by
  cases op with
  | setTimes times =>
    simp only [ImageStack.step, Option.some.injEq] at h
    obtain ⟨himgs, htpl, _, htimes⟩ := setTimes_frame s times
    rw [← h, himgs, htpl]
    refine ⟨rfl, rfl, rfl, ?_⟩
    by_cases hthrown : (s.setTimes times).thrown = none
    · exact Or.inr ⟨times, rfl, hthrown⟩
    · exact Or.inl (htimes hthrown)
  | convolve psf =>
    simp only [ImageStack.step, Option.some.injEq] at h
    rw [← h]
    exact ⟨map_header_of_pointwise (fun i => i.convolve NO_DATA supplier psf)
      (fun _ => rfl) s.images, rfl, rfl, Or.inl rfl⟩
  | applyMaskFlags flags exceptions =>
    simp only [ImageStack.step, Option.some.injEq] at h
    rw [← h]
    exact ⟨map_header_of_pointwise (fun i => i.applyMaskFlags NO_DATA flags exceptions)
      (fun _ => rfl) s.images, rfl, rfl, Or.inl rfl⟩
  | applyMaskThreshold thresh =>
    simp only [ImageStack.step, Option.some.injEq] at h
    rw [← h]
    exact ⟨map_header_of_pointwise (fun i => i.applyMaskThreshold NO_DATA thresh)
      (fun _ => rfl) s.images, rfl, rfl, Or.inl rfl⟩
  | growMask =>
    simp only [ImageStack.step, Option.some.injEq] at h
    rw [← h]
    exact ⟨map_header_of_pointwise (fun i => i.growMask NO_DATA)
      (fun _ => rfl) s.images, rfl, rfl, Or.inl rfl⟩
  | createMasterMask flags threshold =>
    simp only [ImageStack.step, Option.some.injEq] at h
    rw [← h]
    exact ⟨rfl, rfl, rfl, Or.inl rfl⟩
  | applyMasterMask flags threshold =>
    simp only [ImageStack.step, Option.some.injEq] at h
    rw [← h]
    exact ⟨map_header_of_pointwise
      (fun i => i.applyMasterMask NO_DATA (s.createMasterMask flags threshold).masterMask)
      (fun _ => rfl) s.images, rfl, rfl, Or.inl rfl⟩
  | createTemplate =>
    simp only [ImageStack.step] at h
    obtain ⟨himgs, htimes, hw, hh⟩ := createTemplate_frame s s' h
    rw [himgs]
    exact ⟨rfl, hw, hh, Or.inl htimes⟩
  | simpleDifference =>
    simp only [ImageStack.step, ImageStack.simpleDifference] at h
    cases hc : s.createTemplate with
    | none => rw [hc] at h; simp at h
    | some s1 =>
      rw [hc] at h
      obtain ⟨himgs, htimes, hw, hh⟩ := createTemplate_frame s s1 hc
      cases hsub : ImageStack.subtractAll s1.avgTemplate s1.images with
      | none => simp [hsub] at h
      | some imgs =>
        simp only [hsub, Option.some.injEq] at h
        rw [← h]
        refine ⟨?_, hw, hh, Or.inl htimes⟩
        show imgs.map LayeredImage.header = s.images.map LayeredImage.header
        rw [subtractAll_headers _ _ _ hsub, himgs]

/-- Stacks whose exposures have the same headers have the same shape. -/
theorem shape_of_headers (s s' : ImageStack)
    (h : s'.images.map LayeredImage.header = s.images.map LayeredImage.header) :
    s'.getWidth = s.getWidth ∧ s'.getHeight = s.getHeight := by
  unfold ImageStack.getWidth ImageStack.getHeight
  cases hs : s.images with
  | nil =>
    rw [hs] at h
    have : s'.images = [] := by simpa using h
    rw [this]
    exact ⟨rfl, rfl⟩
  | cons a l =>
    rw [hs] at h
    cases hs' : s'.images with
    | nil => rw [hs'] at h; simp at h
    | cons a' l' =>
      rw [hs'] at h
      simp only [List.map_cons, List.cons.injEq, LayeredImage.header, Prod.mk.injEq] at h
      exact ⟨h.1.2.1, h.1.2.2.1⟩

theorem uniform_of_headers (l l' : List LayeredImage) (w h : Nat)
    (hl : l'.map LayeredImage.header = l.map LayeredImage.header)
    (hu : ∀ im ∈ l, im.height = h ∧ im.width = w) :
    ∀ im ∈ l', im.height = h ∧ im.width = w := by
  intro im' him'
  have hmem : im'.header ∈ l.map LayeredImage.header := by
    rw [← hl]
    exact List.mem_map_of_mem _ him'
  obtain ⟨im, him, heq⟩ := List.mem_map.mp hmem
  simp only [LayeredImage.header, Prod.mk.injEq] at heq
  obtain ⟨hh, hw⟩ := hu im him
  exact ⟨by rw [← heq.2.2.1]; exact hh, by rw [← heq.2.1]; exact hw⟩

/-- On a stack whose template and exposures all have the stack's shape, every operation
returns. -/
theorem step_returns (NO_DATA : ℚ) (supplier : ℚ → List ℚ × Nat) (s : ImageStack)
    (op : StackOp)
    (htpl : s.avgTemplate.width = s.getWidth ∧ s.avgTemplate.height = s.getHeight)
    (hu : ∀ im ∈ s.images, im.height = s.getHeight ∧ im.width = s.getWidth) :
    ∃ s', s.step NO_DATA supplier op = some s' := by
  cases op with
  | setTimes times => exact ⟨_, rfl⟩
  | convolve psf => exact ⟨_, rfl⟩
  | applyMaskFlags flags exceptions => exact ⟨_, rfl⟩
  | applyMaskThreshold thresh => exact ⟨_, rfl⟩
  | growMask => exact ⟨_, rfl⟩
  | createMasterMask flags threshold => exact ⟨_, rfl⟩
  | applyMasterMask flags threshold => exact ⟨_, rfl⟩
  | createTemplate =>
    obtain ⟨r, hr, _⟩ := createTemplate_cell s htpl
    exact ⟨r, hr⟩
  | simpleDifference =>
    obtain ⟨r, hr, himgs, _, _, hw, hh, _⟩ := createTemplate_cell s htpl
    have hsub : ∃ l', ImageStack.subtractAll r.avgTemplate r.images = some l' := by
      apply subtractAll_returns
      intro im him
      rw [himgs] at him
      rw [hw, hh, htpl.1, htpl.2]
      exact hu im him
    obtain ⟨l', hl'⟩ := hsub
    refine ⟨{ r with images := l' }, ?_⟩
    simp only [ImageStack.step, ImageStack.simpleDifference, hr, hl']

/-- One operation keeps the invariant of the times: as many times as exposures, the first
one 0, on a stack of fewer than 2^32 exposures and at least one. -/
theorem step_invariant (NO_DATA : ℚ) (supplier : ℚ → List ℚ × Nat) (s : ImageStack)
    (op : StackOp) (s' : ImageStack) (h : s.step NO_DATA supplier op = some s')
    (hpos : 0 < s.images.length) (hsize : s.images.length < 2 ^ 32)
    (hlen : s.imageTimes.length = s.images.length) (hfirst : s.imageTimes[0]? = some 0) :
    s'.imageTimes.length = s'.images.length ∧ s'.imageTimes[0]? = some 0 := by
  obtain ⟨hhead, _, _, htimes⟩ := step_frame NO_DATA supplier s op s' h
  have hcount : s'.images.length = s.images.length := by
    have := congrArg List.length hhead
    simpa using this
  rcases htimes with hsame | ⟨times, hop, hok⟩
  · rw [hsame, hcount]
    exact ⟨hlen, hfirst⟩
  · subst hop
    simp only [ImageStack.step, Option.some.injEq] at h
    obtain ⟨htl, hst⟩ := setTimes_returned s times hok
    have hc : s.imgCount = s.images.length := Nat.mod_eq_of_lt hsize
    have hne : times ≠ [] := by
      intro hnil
      rw [hnil, hc] at htl
      simp at htl
      omega
    obtain ⟨h1, h2⟩ := sub_origin_times times hne
    rw [hcount, ← h, hst, h1, htl, hc]
    exact ⟨rfl, h2⟩

theorem run_invariant (NO_DATA : ℚ) (supplier : ℚ → List ℚ × Nat)
    (imgs : List LayeredImage) (hne : imgs ≠ []) (hsize : imgs.length < 2 ^ 32)
    (ops : List StackOp) (s s' : ImageStack)
    (hrun : s.run NO_DATA supplier ops = some s')
    (hhead : s.images.map LayeredImage.header = imgs.map LayeredImage.header)
    (hlen : s.imageTimes.length = s.images.length) (hfirst : s.imageTimes[0]? = some 0) :
    s'.imageTimes.length = s'.images.length ∧ s'.imageTimes[0]? = some 0 ∧
    s'.images.map LayeredImage.header = imgs.map LayeredImage.header := by
  induction ops generalizing s with
  | nil =>
    simp only [ImageStack.run, Option.some.injEq] at hrun
    rw [← hrun]
    exact ⟨hlen, hfirst, hhead⟩
  | cons op ops ih =>
    unfold ImageStack.run at hrun
    cases hstep : s.step NO_DATA supplier op with
    | none => simp [hstep] at hrun
    | some s1 =>
      simp only [hstep] at hrun
      have hcount : s.images.length = imgs.length := by
        have := congrArg List.length hhead
        simpa using this
      have hpos : 0 < s.images.length := by
        rw [hcount]
        exact List.length_pos.mpr hne
      obtain ⟨h1, h2⟩ := step_invariant NO_DATA supplier s op s1 hstep hpos
        (by rw [hcount]; exact hsize) hlen hfirst
      obtain ⟨hh, _⟩ := step_frame NO_DATA supplier s op s1 hstep
      exact ih s1 hrun (by rw [hh, hhead]) h1 h2

theorem run_returns (NO_DATA : ℚ) (supplier : ℚ → List ℚ × Nat) (ops : List StackOp)
    (s : ImageStack)
    (htpl : s.avgTemplate.width = s.getWidth ∧ s.avgTemplate.height = s.getHeight)
    (hu : ∀ im ∈ s.images, im.height = s.getHeight ∧ im.width = s.getWidth) :
    ∃ s', s.run NO_DATA supplier ops = some s' := by
  induction ops generalizing s with
  | nil => exact ⟨s, rfl⟩
  | cons op ops ih =>
    obtain ⟨s1, hstep⟩ := step_returns NO_DATA supplier s op htpl hu
    obtain ⟨hhead, hw, hh, _⟩ := step_frame NO_DATA supplier s op s1 hstep
    obtain ⟨hsw, hsh⟩ := shape_of_headers s s1 hhead
    obtain ⟨r, hr⟩ := ih s1 ⟨by rw [hw, hsw]; exact htpl.1, by rw [hh, hsh]; exact htpl.2⟩
      (by rw [hsw, hsh]; exact uniform_of_headers s.images s1.images _ _ hhead hu)
    refine ⟨r, ?_⟩
    unfold ImageStack.run
    simp only [hstep]
    exact hr

/-- C16: on a stack constructed from a non-empty list of (fewer than 2^32) exposures, after
any sequence of the stack operations that has returned there are as many relative times as
exposures, the first time is 0, and the exposures are the ones given, in their order (same
capture times and declared dimensions).  No operation changes the number or order of the
exposures, and none but a `setTimes` that does not throw changes the times.  When the
exposures all have the same shape, every sequence of operations does return. -/
theorem stack_time_invariant (NO_DATA : ℚ) (supplier : ℚ → List ℚ × Nat)
    (imgs : List LayeredImage) (hne : imgs ≠ []) (hsize : imgs.length < 2 ^ 32) :
    (∀ (ops : List StackOp) (s' : ImageStack),
      (ImageStack.new imgs).run NO_DATA supplier ops = some s' →
        s'.imageTimes.length = s'.images.length ∧ s'.imageTimes[0]? = some 0 ∧
        s'.images.map LayeredImage.header = imgs.map LayeredImage.header) ∧
    (∀ (s : ImageStack) (op : StackOp) (s' : ImageStack),
      s.step NO_DATA supplier op = some s' →
        s'.images.map LayeredImage.header = s.images.map LayeredImage.header ∧
        (s'.imageTimes = s.imageTimes ∨
          ∃ times, op = StackOp.setTimes times ∧ (s.setTimes times).thrown = none)) ∧
    ((∀ im ∈ imgs, im.height = (ImageStack.new imgs).getHeight ∧
        im.width = (ImageStack.new imgs).getWidth) →
      ∀ ops : List StackOp, ∃ s', (ImageStack.new imgs).run NO_DATA supplier ops = some s') := by
  obtain ⟨himgs, htimes, htw, hth⟩ := new_spec imgs
  have hcap : imgs.map (fun i => toFloat i.captureTime) ≠ [] := by
    intro h
    exact hne (List.map_eq_nil_iff.mp h)
  obtain ⟨hl, hf⟩ := sub_origin_times _ hcap
  refine ⟨?_, ?_, ?_⟩
  · intro ops s' hrun
    apply run_invariant NO_DATA supplier imgs hne hsize ops (ImageStack.new imgs) s' hrun
    · rw [himgs]
    · rw [htimes, hl, himgs]
      simp
    · rw [htimes]
      exact hf
  · intro s op s' hstep
    obtain ⟨hh, _, _, ht⟩ := step_frame NO_DATA supplier s op s' hstep
    exact ⟨hh, ht⟩
  · intro hu ops
    apply run_returns NO_DATA supplier ops (ImageStack.new imgs) ⟨htw, hth⟩
    rw [himgs]
    exact hu

theorem stack_time_invariant_witness :
    (sampleStack.run (-9999) sampleSupplier sampleOps).map (fun r => r.imageTimes) =
      some [0, 5] ∧
    ∃ s', sampleStack.run (-9999) sampleSupplier sampleOps = some s' ∧
      s'.imageTimes.length = s'.images.length ∧ s'.imageTimes[0]? = some 0 := by
  refine ⟨by decide!, ?_⟩
  obtain ⟨hinv, _, hret⟩ :=
    stack_time_invariant (-9999) sampleSupplier
      [sampleExposure 5 [10, 20] [1, 0] [4, 4], sampleExposure 7 [30, 50] [1, 2] [4, 4]]
      (by decide) (by decide)
  obtain ⟨s', hs'⟩ := hret (by decide) sampleOps
  exact ⟨s', hs', (hinv sampleOps s' hs').1, (hinv sampleOps s' hs').2.1⟩

/-! ## C14: the footprint of addObject and maskObject -/

theorem runCalls_append {α : Type} (call : RawImage → α → Option RawImage)
    (l1 l2 : List α) (g : RawImage) :
    runCalls call (l1 ++ l2) g = (runCalls call l1 g).bind (runCalls call l2) := by
  induction l1 generalizing g with
  | nil => rfl
  | cons a l1 ih =>
    simp only [List.cons_append, runCalls]
    cases call g a with
    | none => rfl
    | some g' => exact ih g'

theorem runCalls_map {α β : Type} (call : RawImage → β → Option RawImage) (h : α → β)
    (l : List α) (g : RawImage) :
    runCalls call (l.map h) g = runCalls (fun g a => call g (h a)) l g := by
  induction l generalizing g with
  | nil => rfl
  | cons a l ih =>
    simp only [List.map_cons, runCalls]
    cases call g (h a) with
    | none => rfl
    | some g' => exact ih g'

/-- The inner loop of `addObject`: one call for each `j`, the count going up by one. -/
theorem countedLoop_calls (f : RawImage → Nat → Nat → Option RawImage) (n : Nat)
    (st : Option (RawImage × Nat)) :
    forLoop n (fun j (st : Option (RawImage × Nat)) =>
      match st with
      | none => none
      | some (g, c) =>
        match f g j c with
        | none => none
        | some g' => some (g', c + 1)) st =
    st.bind (fun gc =>
      (runCalls (fun g j => f g j (gc.2 + j)) (List.range n) gc.1).map
        (fun g' => (g', gc.2 + n))) := by
  induction n with
  | zero =>
    cases st with
    | none => rfl
    | some gc => simp [forLoop, runCalls]
  | succ n ih =>
    rw [forLoop, ih]
    cases st with
    | none => rfl
    | some gc =>
      simp only [Option.some_bind, List.range_succ, runCalls_append]
      cases runCalls (fun g j => f g j (gc.2 + j)) (List.range n) gc.1 with
      | none => rfl
      | some g1 =>
        simp only [Option.map_some', Option.some_bind, runCalls]
        cases f g1 n (gc.2 + n) with
        | none => rfl
        | some g2 => simp [Nat.add_assoc]

/-- The inner loop of `maskObject`: one call for each `j`. -/
theorem plainLoop_calls (f : RawImage → Nat → Option RawImage) (n : Nat)
    (st : Option RawImage) :
    forLoop n (fun j (st : Option RawImage) =>
      match st with
      | none => none
      | some g => f g j) st =
    st.bind (runCalls f (List.range n)) := by
  induction n with
  | zero =>
    cases st with
    | none => rfl
    | some g => simp [forLoop, runCalls]
  | succ n ih =>
    rw [forLoop, ih]
    cases st with
    | none => rfl
    | some g =>
      simp only [Option.some_bind, List.range_succ, runCalls_append]
      cases runCalls f (List.range n) g with
      | none => rfl
      | some g1 =>
        simp only [Option.some_bind, runCalls]
        cases f g1 n with
        | none => rfl
        | some g2 => rfl

/-- The two nested loops of `addObject` make the calls of the footprint, in its order, the
count being the kernel index `i*dim + j`. -/
theorem addObject_loops (F : RawImage → Nat → Nat → Nat → Option RawImage) (dim m : Nat)
    (g0 : RawImage) :
    forLoop m (fun i st =>
      forLoop dim (fun j (st : Option (RawImage × Nat)) =>
        match st with
        | none => none
        | some (g, c) =>
          match F g i j c with
          | none => none
          | some g' => some (g', c + 1)) st) (some (g0, 0)) =
    (runCalls (fun g c => F g c.1 c.2.1 c.2.2)
      ((List.range m).flatMap (fun i => (List.range dim).map (fun j => (i, j, i * dim + j))))
      g0).map (fun g' => (g', m * dim)) := by
  induction m with
  | zero => simp [forLoop, runCalls]
  | succ m ih =>
    rw [forLoop, ih, countedLoop_calls (fun g j c => F g m j c)]
    simp only [List.range_succ, List.flatMap_append, List.flatMap_singleton, runCalls_append]
    cases runCalls (fun g c => F g c.1 c.2.1 c.2.2)
        ((List.range m).flatMap
          (fun i => (List.range dim).map (fun j => (i, j, i * dim + j)))) g0 with
    | none => rfl
    | some g1 =>
      simp only [Option.map_some', Option.some_bind, runCalls_map, Nat.succ_mul]

/-- The two nested loops of `maskObject` make the calls of the footprint, in its order. -/
theorem maskObject_loops (F : RawImage → Nat → Nat → Option RawImage) (dim m : Nat)
    (g0 : RawImage) :
    forLoop m (fun i st =>
      forLoop dim (fun j (st : Option RawImage) =>
        match st with
        | none => none
        | some g => F g i j) st) (some g0) =
    runCalls (fun g (c : Nat × Nat × Nat) => F g c.1 c.2.1)
      ((List.range m).flatMap (fun i => (List.range dim).map (fun j => (i, j, i * dim + j))))
      g0 := by
  induction m with
  | zero => simp [forLoop, runCalls]
  | succ m ih =>
    rw [forLoop, ih, plainLoop_calls (fun g j => F g m j)]
    simp only [List.range_succ, List.flatMap_append, List.flatMap_singleton, runCalls_append]
    cases runCalls (fun g (c : Nat × Nat × Nat) => F g c.1 c.2.1)
        ((List.range m).flatMap
          (fun i => (List.range dim).map (fun j => (i, j, i * dim + j)))) g0 with
    | none => rfl
    | some g1 =>
      simp only [Option.some_bind, runCalls_map]

theorem footprint_rows_indices (dim m : Nat) :
    (((List.range m).flatMap
      (fun i => (List.range dim).map (fun j => (i, j, i * dim + j)))).map
        (fun c : Nat × Nat × Nat => c.2.2)) = List.range (m * dim) := by
  induction m with
  | zero => simp
  | succ m ih =>
    rw [List.range_succ, List.flatMap_append, List.map_append, ih, List.flatMap_singleton,
      Nat.succ_mul, List.range_add, List.map_map]
    rfl

/-- The kernel indices of the footprint are `0, 1, ..., dim*dim - 1`, in this order. -/
theorem footprint_indices (dim : Nat) :
    (footprint dim).map (fun c => c.2.2) = List.range (dim * dim) :=
  footprint_rows_indices dim dim

theorem footprint_nodup (dim : Nat) : (footprint dim).Nodup := by
  apply List.Nodup.of_map (fun c : Nat × Nat × Nat => c.2.2)
  rw [footprint_indices]
  exact List.nodup_range _

theorem mem_footprint (dim i j idx : Nat) :
    (i, j, idx) ∈ footprint dim ↔ i < dim ∧ j < dim ∧ idx = i * dim + j := by
  unfold footprint
  simp only [List.mem_flatMap, List.mem_range, List.mem_map, Prod.mk.injEq]
  constructor
  · rintro ⟨a, ha, b, hb, h1, h2, h3⟩
    subst h1 h2
    exact ⟨ha, hb, h3.symm⟩
  · rintro ⟨hi, hj, hidx⟩
    exact ⟨i, hi, j, hj, rfl, rfl, hidx.symm⟩

/-- Two cells of one row-by-row buffer with the same place are the same cell. -/
theorem cell_index_inj (w a b a' b' : Nat) (ha : a < w) (ha' : a' < w)
    (h : b * w + a = b' * w + a') : a = a' ∧ b = b' := by
  have hw : 0 < w := Nat.lt_of_le_of_lt (Nat.zero_le a) ha
  have hmod : (b * w + a) % w = (b' * w + a') % w := by rw [h]
  rw [Nat.add_comm (b * w), Nat.add_comm (b' * w), Nat.add_mul_mod_self_right,
    Nat.add_mul_mod_self_right, Nat.mod_eq_of_lt ha, Nat.mod_eq_of_lt ha'] at hmod
  have hdiv : (b * w + a) / w = (b' * w + a') / w := by rw [h]
  rw [Nat.add_comm (b * w), Nat.add_comm (b' * w), Nat.add_mul_div_right _ _ hw,
    Nat.add_mul_div_right _ _ hw, Nat.div_eq_of_lt ha, Nat.div_eq_of_lt ha'] at hdiv
  exact ⟨hmod, by omega⟩

/-- Float additions made one after the other to cells of a buffer: cell `q` ends with its
old value to which the values added at `q` have been added in turn. -/
theorem foldl_addFloat_cell {α : Type} (idx : α → Nat) (val : α → ℚ) (l : List α)
    (px : List ℚ) (q : Nat) :
    (l.foldl (fun px c => px.set (idx c) (toFloat (px.getD (idx c) 0 + val c))) px)[q]? =
      (px[q]?).map (fun x =>
        (l.filter (fun c => idx c = q)).foldl (fun acc c => toFloat (acc + val c)) x) := by
  induction l generalizing px with
  | nil => simp
  | cons c l ih =>
    rw [List.foldl_cons, ih, List.getElem?_set']
    by_cases hq : idx c = q
    · subst hq
      simp only [if_true, List.getD_eq_getElem?_getD, decide_True, List.filter_cons_of_pos,
        List.foldl_cons]
      cases px[idx c]? with
      | none => rfl
      | some x => simp
    · simp [hq]

theorem filter_no_match {α : Type} (idx : α → Nat) (l : List α) (q : Nat)
    (h : ∀ c ∈ l, idx c ≠ q) : l.filter (fun c => idx c = q) = [] := by
  rw [List.filter_eq_nil_iff]
  intro c hc
  simpa using h c hc

/-- In a list without repetition whose entries have different places, the entries at the
place of an entry are that entry alone. -/
theorem filter_single_match {α : Type} (idx : α → Nat) (l : List α) (c0 : α)
    (hnd : l.Nodup) (hmem : c0 ∈ l)
    (hinj : ∀ c ∈ l, ∀ c' ∈ l, idx c = idx c' → c = c') :
    l.filter (fun c => idx c = idx c0) = [c0] := by
  induction l with
  | nil => simp at hmem
  | cons c l ih =>
    obtain ⟨hc, hl⟩ := List.nodup_cons.mp hnd
    by_cases hcc : c = c0
    · subst hcc
      rw [List.filter_cons_of_pos (by simp), filter_no_match idx l (idx c)]
      intro c' hc' heq
      have := hinj c' (List.mem_cons_of_mem c hc') c (List.mem_cons_self c l) heq
      rw [this] at hc'
      exact hc hc'
    · have hne : idx c ≠ idx c0 := by
        intro heq
        exact hcc (hinj c (List.mem_cons_self c l) c0 hmem heq)
      have hmem' : c0 ∈ l := by
        rcases List.mem_cons.mp hmem with h | h
        · exact absurd h.symm hcc
        · exact h
      rw [List.filter_cons_of_neg (by simpa using hne)]
      exact ih hl hmem'
        (fun a ha b hb => hinj a (List.mem_cons_of_mem c ha) b (List.mem_cons_of_mem c hb))

/-- A grid of floats is still one after a float addition to one of its cells. -/
theorem addToCell_floats (g : RawImage) (x y : Nat) (v : ℚ)
    (hfl : ∀ u ∈ g.pixels, toFloat u = u) :
    ∀ u ∈ (g.addToCell x y v).pixels, toFloat u = u := by
  intro u hu
  unfold RawImage.addToCell at hu
  rcases List.mem_or_eq_of_mem_set hu with h | h
  · exact hfl u h
  · rw [h, toFloat_idem]

/-- When every call adds its value, in float, to its own cell, the calls of a list return
and leave the buffer with those additions made one after the other. -/
theorem runCalls_exact {α : Type} (call : RawImage → α → Option RawImage) (X Y : α → Nat)
    (val : α → ℚ) (w h : Nat) (l : List α)
    (hcall : ∀ g : RawImage, g.width = w → g.height = h → g.WellFormed →
      (∀ u ∈ g.pixels, toFloat u = u) →
      ∀ c ∈ l, call g c = some (g.addToCell (X c) (Y c) (val c)))
    (g : RawImage) (hw : g.width = w) (hh : g.height = h) (hwf : g.WellFormed)
    (hfl : ∀ u ∈ g.pixels, toFloat u = u) :
    ∃ g', runCalls call l g = some g' ∧
      g'.pixels = l.foldl (fun px c =>
        px.set (Y c * w + X c) (toFloat (px.getD (Y c * w + X c) 0 + val c))) g.pixels := by
  induction l generalizing g with
  | nil => exact ⟨g, rfl, rfl⟩
  | cons c l ih =>
    have hc := hcall g hw hh hwf hfl c (List.mem_cons_self c l)
    have hwf' : (g.addToCell (X c) (Y c) (val c)).WellFormed := by
      unfold RawImage.WellFormed RawImage.addToCell
      simp only [List.length_set]
      exact hwf
    obtain ⟨g', hg', hpx⟩ := ih
      (fun g1 h1 h2 h3 h4 c' hc' => hcall g1 h1 h2 h3 h4 c' (List.mem_cons_of_mem c hc'))
      (g.addToCell (X c) (Y c) (val c)) hw hh hwf' (addToCell_floats g _ _ _ hfl)
    refine ⟨g', ?_, ?_⟩
    · simp only [runCalls, hc]
      exact hg'
    · rw [hpx, List.foldl_cons]
      simp only [RawImage.addToCell, RawImage.cellIndex, hw]

/-- For an integer `x - radius = x0` the float coordinate of the call for the offset `i` is
the integer `x0 + i`, as long as the integers are at most 2^24. -/
theorem callPosition_integer (x : ℚ) (radius x0 i : Nat)
    (hx : x - (radius : ℚ) = (x0 : ℚ)) (hr : radius ≤ 2 ^ 24) (hi : x0 + i ≤ 2 ^ 24) :
    callPosition x radius i = ((x0 + i : Nat) : ℚ) := by
  unfold callPosition
  rw [toFloat_natCast radius hr, hx, toFloat_natCast x0 (by omega),
    toFloat_natCast i (by omega)]
  have := toFloat_natCast (x0 + i) hi
  push_cast at this ⊢
  exact this

/-- C14 (as amended): `addObject` calls `addPixelInterp` on the science layer once per
offset pair `(i, j)` with `i, j < dim`, in the order of the footprint, at the position and
with the value that `float` arithmetic gives: the coordinates are `x - radius` and
`y - radius` rounded to float, then `+ i` and `+ j` rounded to float, and the value is
`flux * k[i*dim + j]` rounded to float; `maskObject` calls `maskPixelInterp` at the same
positions; both leave the mask and variance layers unchanged.  When `x - radius = x0` and
`y - radius = y0` are non-negative integers, `dim = 2*radius + 1`, the footprint is inside
the image and the image is at most 2^24 wide and high, these positions are exactly the
integers `(x0 + i, y0 + j)`.  If, moreover, `addPixelInterp` adds the whole value it is
given at each of these positions to the cell of that position, in float, and to no other
cell, then `addObject` returns, the science value at `(x0 + i, y0 + j)` becomes the float
nearest to the old value plus the rounded `flux * k[i*dim + j]`, as long as the product and
the sum are within the range of `float`, and no other pixel changes. -/
theorem addObject_footprint (addPixelInterp : RawImage → ℚ → ℚ → ℚ → Option RawImage)
    (maskPixelInterp : RawImage → ℚ → ℚ → Option RawImage) (self : LayeredImage)
    (x y flux : ℚ) (psf : PointSpreadFunc) :
    (self.addObject addPixelInterp x y flux psf =
      (runCalls (fun g c => addPixelInterp g (callPosition x psf.radius c.1)
          (callPosition y psf.radius c.2.1) (toFloat (flux * psf.kernel.getD c.2.2 0)))
        (footprint psf.dim) self.science).map (fun g => { self with science := g })) ∧
    (self.maskObject maskPixelInterp x y psf =
      (runCalls (fun g c => maskPixelInterp g (callPosition x psf.radius c.1)
          (callPosition y psf.radius c.2.1))
        (footprint psf.dim) self.science).map (fun g => { self with science := g })) ∧
    ((footprint psf.dim).Nodup ∧
      ∀ i j idx : Nat, (i, j, idx) ∈ footprint psf.dim ↔
        i < psf.dim ∧ j < psf.dim ∧ idx = i * psf.dim + j) ∧
    (∀ r, (self.addObject addPixelInterp x y flux psf = some r ∨
        self.maskObject maskPixelInterp x y psf = some r) →
      r.mask = self.mask ∧ r.variance = self.variance) ∧
    (∀ x0 y0 : Nat, x - (psf.radius : ℚ) = (x0 : ℚ) → y - (psf.radius : ℚ) = (y0 : ℚ) →
      psf.dim = 2 * psf.radius + 1 →
      x0 + psf.dim ≤ self.science.width → y0 + psf.dim ≤ self.science.height →
      self.science.width ≤ 2 ^ 24 → self.science.height ≤ 2 ^ 24 →
      (∀ i : Nat, i < psf.dim →
        callPosition x psf.radius i = ((x0 + i : Nat) : ℚ) ∧
        callPosition y psf.radius i = ((y0 + i : Nat) : ℚ)) ∧
      (self.science.WellFormed → (∀ u ∈ self.science.pixels, toFloat u = u) →
        (∀ g : RawImage, g.width = self.science.width → g.height = self.science.height →
          g.WellFormed → (∀ u ∈ g.pixels, toFloat u = u) →
          ∀ i j : Nat, i < psf.dim → j < psf.dim → ∀ v : ℚ, toFloat v = v →
            addPixelInterp g ((x0 + i : Nat) : ℚ) ((y0 + j : Nat) : ℚ) v =
              some (g.addToCell (x0 + i) (y0 + j) v)) →
        ∃ r, self.addObject addPixelInterp x y flux psf = some r ∧
          (∀ i j : Nat, i < psf.dim → j < psf.dim →
            |flux * psf.kernel.getD (i * psf.dim + j) 0| ≤ maxFloat →
            |self.science.pixels.getD (self.science.cellIndex (x0 + i) (y0 + j)) 0 +
              toFloat (flux * psf.kernel.getD (i * psf.dim + j) 0)| ≤ maxFloat →
            r.science.pixels[self.science.cellIndex (x0 + i) (y0 + j)]? =
              some (toFloat
                (self.science.pixels.getD (self.science.cellIndex (x0 + i) (y0 + j)) 0 +
                  toFloat (flux * psf.kernel.getD (i * psf.dim + j) 0)))) ∧
          (∀ q : Nat,
            (∀ i j : Nat, i < psf.dim → j < psf.dim →
              q ≠ self.science.cellIndex (x0 + i) (y0 + j)) →
            r.science.pixels[q]? = self.science.pixels[q]?))) := by
  have hadd : self.addObject addPixelInterp x y flux psf =
      (runCalls (fun g c => addPixelInterp g (callPosition x psf.radius c.1)
          (callPosition y psf.radius c.2.1) (toFloat (flux * psf.kernel.getD c.2.2 0)))
        (footprint psf.dim) self.science).map (fun g => { self with science := g }) := by
    unfold LayeredImage.addObject footprint callPosition
    simp only
    rw [addObject_loops (fun g i j c => addPixelInterp g
      (toFloat (toFloat (x - toFloat (psf.radius : ℚ)) + toFloat (i : ℚ)))
      (toFloat (toFloat (y - toFloat (psf.radius : ℚ)) + toFloat (j : ℚ)))
      (toFloat (flux * psf.kernel.getD c 0)))]
    generalize runCalls _ _ self.science = res
    cases res <;> rfl
  have hmask : self.maskObject maskPixelInterp x y psf =
      (runCalls (fun g c => maskPixelInterp g (callPosition x psf.radius c.1)
          (callPosition y psf.radius c.2.1))
        (footprint psf.dim) self.science).map (fun g => { self with science := g }) := by
    unfold LayeredImage.maskObject footprint callPosition
    simp only
    rw [maskObject_loops (fun g i j => maskPixelInterp g
      (toFloat (toFloat (x - toFloat (psf.radius : ℚ)) + toFloat (i : ℚ)))
      (toFloat (toFloat (y - toFloat (psf.radius : ℚ)) + toFloat (j : ℚ))))]
    generalize runCalls _ _ self.science = res
    cases res <;> rfl
  refine ⟨hadd, hmask, ⟨footprint_nodup _, mem_footprint _⟩, ?_, ?_⟩
  · intro r hr
    rcases hr with hr | hr
    · rw [hadd] at hr
      obtain ⟨g, _, hg⟩ := Option.map_eq_some'.mp hr
      rw [← hg]
      exact ⟨rfl, rfl⟩
    · rw [hmask] at hr
      obtain ⟨g, _, hg⟩ := Option.map_eq_some'.mp hr
      rw [← hg]
      exact ⟨rfl, rfl⟩
  · intro x0 y0 hx hy hdim hxw hyh hwide hhigh
    have hpos : ∀ i : Nat, i < psf.dim →
        callPosition x psf.radius i = ((x0 + i : Nat) : ℚ) ∧
        callPosition y psf.radius i = ((y0 + i : Nat) : ℚ) := by
      intro i hi
      exact ⟨callPosition_integer x psf.radius x0 i hx (by omega) (by omega),
        callPosition_integer y psf.radius y0 i hy (by omega) (by omega)⟩
    refine ⟨hpos, ?_⟩
    intro hwf hfl hinterp
    obtain ⟨g', hrun, hpx⟩ := runCalls_exact
      (fun g c => addPixelInterp g (callPosition x psf.radius c.1)
        (callPosition y psf.radius c.2.1) (toFloat (flux * psf.kernel.getD c.2.2 0)))
      (fun c => x0 + c.1) (fun c => y0 + c.2.1)
      (fun c => toFloat (flux * psf.kernel.getD c.2.2 0))
      self.science.width self.science.height (footprint psf.dim)
      (by
        intro g hgw hgh hgwf hgfl c hc
        obtain ⟨i, j, idx⟩ := c
        obtain ⟨hi, hj, _⟩ := (mem_footprint _ _ _ _).mp hc
        simp only [(hpos i hi).1, (hpos j hj).2]
        exact hinterp g hgw hgh hgwf hgfl i j hi hj _ (toFloat_idem _))
      self.science rfl rfl hwf hfl
    have hinj : ∀ c ∈ footprint psf.dim, ∀ c' ∈ footprint psf.dim,
        (y0 + c.2.1) * self.science.width + (x0 + c.1) =
          (y0 + c'.2.1) * self.science.width + (x0 + c'.1) → c = c' := by
      intro c hc c' hc' heq
      obtain ⟨i, j, idx⟩ := c
      obtain ⟨i', j', idx'⟩ := c'
      obtain ⟨hi, hj, hidx⟩ := (mem_footprint _ _ _ _).mp hc
      obtain ⟨hi', hj', hidx'⟩ := (mem_footprint _ _ _ _).mp hc'
      obtain ⟨h1, h2⟩ := cell_index_inj self.science.width (x0 + i) (y0 + j) (x0 + i')
        (y0 + j') (by omega) (by omega) heq
      have hii : i = i' := by omega
      have hjj : j = j' := by omega
      subst hii hjj
      rw [hidx, hidx']
    refine ⟨{ self with science := g' }, ?_, ?_, ?_⟩
    · rw [hadd, hrun]
      rfl
    · intro i j hi hj _ _
      have hmem : (i, j, i * psf.dim + j) ∈ footprint psf.dim :=
        (mem_footprint _ _ _ _).mpr ⟨hi, hj, rfl⟩
      have hin : self.science.cellIndex (x0 + i) (y0 + j) < self.science.pixels.length := by
        rw [hwf]
        unfold RawImage.cellIndex
        have h1 : (y0 + j) * self.science.width + self.science.width ≤
            self.science.height * self.science.width := by
          rw [← Nat.succ_mul]
          exact Nat.mul_le_mul_right _ (by omega)
        rw [Nat.mul_comm self.science.width self.science.height]
        omega
      show g'.pixels[self.science.cellIndex (x0 + i) (y0 + j)]? = _
      rw [hpx, foldl_addFloat_cell, List.getElem?_eq_getElem hin]
      have hs := filter_single_match
        (fun c : Nat × Nat × Nat => (y0 + c.2.1) * self.science.width + (x0 + c.1))
        (footprint psf.dim) (i, j, i * psf.dim + j) (footprint_nodup _) hmem hinj
      simp only [RawImage.cellIndex] at hs ⊢
      rw [hs]
      simp [List.getElem?_eq_getElem (by simpa [RawImage.cellIndex] using hin)]
    · intro q hq
      show g'.pixels[q]? = _
      rw [hpx, foldl_addFloat_cell, filter_no_match]
      · cases self.science.pixels[q]? <;> simp
      · intro c hc heq
        obtain ⟨i, j, idx⟩ := c
        obtain ⟨hi, hj, _⟩ := (mem_footprint _ _ _ _).mp hc
        exact hq i j hi hj heq.symm

theorem addToCell_zero (g : RawImage) (x y : Nat) (hfl : ∀ u ∈ g.pixels, toFloat u = u) :
    g.addToCell x y 0 = g := by
  unfold RawImage.addToCell
  have h : toFloat (g.pixels.getD (g.cellIndex x y) 0 + 0) =
      g.pixels.getD (g.cellIndex x y) 0 := by
    rw [add_zero]
    by_cases hi : g.cellIndex x y < g.pixels.length
    · have hget : g.pixels.getD (g.cellIndex x y) 0 = g.pixels[g.cellIndex x y] := by
        simp [List.getElem?_eq_getElem hi]
      rw [hget]
      exact hfl _ (List.getElem_mem hi)
    · have hget : g.pixels.getD (g.cellIndex x y) 0 = 0 := by
        simp [List.getElem?_eq_none (Nat.le_of_not_lt hi)]
      rw [hget, toFloat_zero]
  rw [h, set_getD_self]

theorem addToPixel_inside (g : RawImage) (a b : Nat) (v : ℚ) (ha : a < g.width)
    (hb : b < g.height) : g.addToPixel (a : Int) (b : Int) v = some (g.addToCell a b v) := by
  unfold RawImage.addToPixel
  have h : 0 ≤ (a : Int) ∧ (a : Int) < g.width ∧ 0 ≤ (b : Int) ∧ (b : Int) < g.height :=
    ⟨Int.ofNat_nonneg a, by exact_mod_cast ha, Int.ofNat_nonneg b, by exact_mod_cast hb⟩
  rw [if_pos h]
  simp

/-- The bilinear distribution modelled from the spec puts the whole of a float value given
at an integer position on the cell of that position, when the four surrounding cells are in
the grid and the grid holds floats. -/
theorem addPixelInterp_integer (g : RawImage) (a b : Nat) (v : ℚ) (ha : a + 1 < g.width)
    (hb : b + 1 < g.height) (hfl : ∀ u ∈ g.pixels, toFloat u = u) (hv : toFloat v = v) :
    g.addPixelInterp (a : ℚ) (b : ℚ) v = some (g.addToCell a b v) := by
  have hfl' := addToCell_floats g a b v hfl
  have hw : (g.addToCell a b v).width = g.width := rfl
  have hh : (g.addToCell a b v).height = g.height := rfl
  have h1 := addToPixel_inside g a b v (by omega) (by omega)
  have h2 := addToPixel_inside (g.addToCell a b v) (a + 1) b 0 (by omega) (by omega)
  have h3 := addToPixel_inside (g.addToCell a b v) a (b + 1) 0 (by omega) (by omega)
  have h4 := addToPixel_inside (g.addToCell a b v) (a + 1) (b + 1) 0 (by omega) (by omega)
  rw [addToCell_zero _ _ _ hfl'] at h2 h3 h4
  simp only [Nat.cast_add, Nat.cast_one] at h2 h3 h4
  have hone : toFloat 1 = 1 := by
    have := toFloat_natCast 1 (by decide)
    simpa using this
  unfold RawImage.addPixelInterp
  simp only [Int.floor_natCast, Int.cast_natCast, sub_self, sub_zero, mul_one, mul_zero,
    zero_mul, toFloat_zero, hone, hv, h1, h2, h3, h4]

theorem addObject_footprint_witness :
    (testImage.addObject RawImage.addPixelInterp 2 2 8
        (PointSpreadFunc.new sampleSupplier 1)).map (fun r => r.science.pixels) =
      some [0, 0, 0, 0, 0,  0, 0, 1, 0, 0,  0, 1, 4, 1, 0,  0, 0, 1, 0, 0,  0, 0, 0, 0, 0] ∧
    ∃ r, testImage.addObject RawImage.addPixelInterp 2 2 8
        (PointSpreadFunc.new sampleSupplier 1) = some r ∧
      r.science.pixels[testImage.science.cellIndex (1 + 1) (1 + 1)]? =
        some (toFloat
          (testImage.science.pixels.getD (testImage.science.cellIndex (1 + 1) (1 + 1)) 0 +
            toFloat (8 * (PointSpreadFunc.new sampleSupplier 1).kernel.getD (1 * 3 + 1) 0))) := by
  refine ⟨by decide!, ?_⟩
  obtain ⟨r, hr, hcell, _⟩ :=
    ((addObject_footprint RawImage.addPixelInterp (fun g _ _ => some g) testImage 2 2 8
      (PointSpreadFunc.new sampleSupplier 1)).2.2.2.2 1 1 (by decide!) (by decide!)
      (by decide) (by decide) (by decide) (by decide) (by decide)).2 (by decide) (by decide!)
      (by
        intro g hgw hgh _ hgfl i j hi hj v hv
        have hi3 : i < 3 := hi
        have hj3 : j < 3 := hj
        have hgw5 : g.width = 5 := hgw
        have hgh5 : g.height = 5 := hgh
        exact addPixelInterp_integer g (1 + i) (1 + j) v (by omega) (by omega) hgfl hv)
  exact ⟨r, hr, hcell 1 1 (by decide) (by decide) (by decide!) (by decide!)⟩

/-- C14 (counterexample): on the 5x5 test image take for `x` and `y` the float nearest to
1.1, which is 9227469/8388608, for `flux` the float nearest to 0.1, which is
13421773/134217728, and the PSF of radius 1 with the kernel weights 1/4 and 3/16.  Recording
the calls that `addObject` makes shows the calls for the offset 2 at the coordinate
4404019/2097152, not at `x - radius + 2`, which is 17616077/8388608 and not a float, and the
call for the offset pair (0, 1) with the value 5033165/268435456, not with `flux * k[1]`,
which is 40265319/2147483648 and not a float.  With integer `x = y = 2` and the bilinear
distribution modelled from the spec, the sum of the science layer is raised by
53687093/536870912, not by `flux` times the sum of the kernel. -/
theorem addObject_rounding_counterexample :
    toFloat (9227469 / 8388608) = 9227469 / 8388608 ∧
    toFloat (13421773 / 134217728) = 13421773 / 134217728 ∧
    (testImage.addObject recordCall (9227469 / 8388608) (9227469 / 8388608)
        (13421773 / 134217728) crossPSF).map (fun r => r.science.pixels.drop 25) =
      some [838861 / 8388608, 838861 / 8388608, 0,
        838861 / 8388608, 9227469 / 8388608, 5033165 / 268435456,
        838861 / 8388608, 4404019 / 2097152, 0,
        9227469 / 8388608, 838861 / 8388608, 5033165 / 268435456,
        9227469 / 8388608, 9227469 / 8388608, 13421773 / 536870912,
        9227469 / 8388608, 4404019 / 2097152, 5033165 / 268435456,
        4404019 / 2097152, 838861 / 8388608, 0,
        4404019 / 2097152, 9227469 / 8388608, 5033165 / 268435456,
        4404019 / 2097152, 4404019 / 2097152, 0] ∧
    (4404019 / 2097152 : ℚ) ≠ 9227469 / 8388608 - (crossPSF.radius : ℚ) + ((2 : Nat) : ℚ) ∧
    (5033165 / 268435456 : ℚ) ≠ 13421773 / 134217728 * crossPSF.kernel.getD (0 * 3 + 1) 0 ∧
    (testImage.addObject RawImage.addPixelInterp 2 2 (13421773 / 134217728) crossPSF).map
        (fun r => r.science.pixels.sum) = some (53687093 / 536870912) ∧
    (53687093 / 536870912 : ℚ) ≠
      testImage.science.pixels.sum + 13421773 / 134217728 * crossPSF.kernel.sum := by
  decide!

end kbmod
